import Mathlib

/-!
Verification of the timetable generation engine of
`advanced_timetable_generator.py` (Smart-Classroom-Timetable-Scheduler).

The Python source is shallowly embedded:

* `TimeSlot` keeps only `day` and `period`; the source's `start_time` /
  `end_time` strings are display-only and are explicitly excluded from
  `__eq__` / `__hash__` (lines 25-29), so they never influence behaviour.
* Activity ids in the source are strings of the shape
  `f"{section.id}_{teacher.id}_{classroom.id}_{subject.id}_{class_num}"`
  (line 871), and `get_section_id` / `get_teacher_id` / `get_room_id`
  parse fields 0 / 1 / 2 back out of the string.  We embed the id as a
  record of those five numeric fields with the projections below.
* A Python dict `schedule : {activity_id: TimeSlot}` is embedded as an
  association list in insertion order; `dict[k] = v` is `sched_insert`
  (replace in place if the key exists, else append), matching dict
  update semantics and iteration order.
* Floats are embedded as rationals; all constants in the source are
  small decimal literals.
* `ConstraintManager.get_subject_difficulty` is a stub returning a
  FRESH `random.random()` draw on every call.  Two embeddings are used:
  `evaluate_soft_constraints` abstracts the draws of ONE evaluation as a
  per-activity oracle `d : ActivityId -> Q` (adequate wherever a single
  evaluation is discussed, e.g. fitness), while
  `evaluate_soft_constraints_stream` threads an explicit draw stream
  and position across successive calls, reproducing the per-call
  redrawing — the distinction decides the refinement claims.  The stubs
  `is_lab_activity` (always `False`) and `teacher_prefers_time`
  (always `True`) are embedded exactly as written.
-/

namespace Timetable

/- The kernel evaluates rational arithmetic fine, but these core
operations are flagged irreducible, which blocks `decide` on concrete
schedule scores; computations here never divide, so re-enabling
unfolding for them is safe. -/
attribute [local semireducible] Rat.add Rat.mul Rat.sub

/-- `TimeSlot` (source lines 17-29): equality and hashing are solely by
`(day, period)`; the display times are omitted from the embedding. -/
structure TimeSlot where
  day : String
  period : Nat
deriving DecidableEq, Repr

/-- The numeric fields packed into an activity-id string
`"{section}_{teacher}_{room}_{subject}_{num}"` (source line 871). -/
structure ActivityId where
  sectionId : Nat
  teacherId : Nat
  roomId : Nat
  subjectId : Nat
  classNum : Nat
deriving DecidableEq, Repr

/-- `get_teacher_id` (source lines 209-211): field 1 of the id string. -/
def get_teacher_id (a : ActivityId) : Nat := a.teacherId

/-- `get_room_id` (source lines 213-215): field 2 of the id string. -/
def get_room_id (a : ActivityId) : Nat := a.roomId

/-- `get_section_id` (source lines 217-219): field 0 of the id string. -/
def get_section_id (a : ActivityId) : Nat := a.sectionId

/-- A schedule: the Python dict `{activity_id: TimeSlot}` in insertion
order. -/
abbrev Schedule := List (ActivityId × TimeSlot)

/-- Dict lookup `schedule[activity_id]`, as an `Option`. -/
def slookup (a : ActivityId) : Schedule → Option TimeSlot
  | [] => none
  | (b, sl) :: rest => if b = a then some sl else slookup a rest

/-- Dict update `schedule[a] = sl`: replace in place if present, else
append (Python dicts keep the original insertion position on update). -/
def sched_insert (a : ActivityId) (sl : TimeSlot) : Schedule → Schedule
  | [] => [(a, sl)]
  | (b, t) :: rest => if b = a then (a, sl) :: rest else (b, t) :: sched_insert a sl rest

/-- `ConstraintViolation` (source lines 50-56). -/
structure ConstraintViolation where
  vkind : String
  description : String
  penalty : ℚ
  activity_ids : List ActivityId
deriving DecidableEq, Repr

/-- `hard_constraints` weights (source lines 63-69): every entry is `1000.0`. -/
def no_teacher_double_booking_penalty : ℚ := 1000

/-- See `no_teacher_double_booking_penalty`. -/
def no_room_double_booking_penalty : ℚ := 1000

/-- See `no_teacher_double_booking_penalty`. -/
def no_section_double_booking_penalty : ℚ := 1000

/-- Deduplicate keeping the first occurrence, in order; this is the key
order of the Python `defaultdict`s built during validation and scoring
(e.g. source lines 84-86). -/
def dedupKeepFirst {α : Type} [DecidableEq α] (seen : List α) : List α → List α
  | [] => []
  | x :: xs => if x ∈ seen then dedupKeepFirst seen xs else x :: dedupKeepFirst (x :: seen) xs

/-- The distinct slots of a schedule in first-appearance order
(the iteration order of `time_slot_activities` at line 89). -/
def slotsInOrder (s : Schedule) : List TimeSlot := dedupKeepFirst [] (s.map Prod.snd)

/-- The activity ids grouped under one slot, in insertion order
(`time_slot_activities[time_slot]`, lines 84-86). -/
def idsAtSlot (s : Schedule) (sl : TimeSlot) : List ActivityId :=
  (s.filter (fun e => decide (e.2 = sl))).map Prod.fst

/-- `len(xs) != len(set(xs))` (source lines 93, 101, 109). -/
def has_duplicates (l : List Nat) : Bool := decide (l.dedup.length ≠ l.length)

/-- The violations emitted for one slot group (source lines 89-113):
nothing for a singleton group; otherwise one violation per duplicated
dimension (teacher, room, section), in that order. -/
def violations_at_slot (s : Schedule) (sl : TimeSlot) : List ConstraintViolation :=
  let acts := idsAtSlot s sl
  if 1 < acts.length then
    (if has_duplicates (acts.map get_teacher_id) then
      [⟨"hard", "Teacher double-booking", no_teacher_double_booking_penalty, acts⟩] else [])
    ++ (if has_duplicates (acts.map get_room_id) then
      [⟨"hard", "Room double-booking", no_room_double_booking_penalty, acts⟩] else [])
    ++ (if has_duplicates (acts.map get_section_id) then
      [⟨"hard", "Section double-booking", no_section_double_booking_penalty, acts⟩] else [])
  else []

/-- `ConstraintManager.validate_hard_constraints` (source lines 79-115):
group the schedule by slot, then emit the per-slot violations in group
order. -/
def validate_hard_constraints (s : Schedule) : List ConstraintViolation :=
  (slotsInOrder s).flatMap (violations_at_slot s)

lemma mem_idsAtSlot {s : Schedule} {a : ActivityId} {sl : TimeSlot}
    (h : (a, sl) ∈ s) : a ∈ idsAtSlot s sl := by
  unfold idsAtSlot
  exact List.mem_map_of_mem Prod.fst (List.mem_filter.2 ⟨h, by simp⟩)

lemma mem_dedupKeepFirst {α : Type} [DecidableEq α] {x : α} :
    ∀ (seen xs : List α), x ∈ xs → x ∈ seen ∨ x ∈ dedupKeepFirst seen xs
  | _, [], h => absurd h (List.not_mem_nil _)
  | seen, y :: ys, h => by
    rcases List.mem_cons.1 h with rfl | hmem
    · by_cases hy : x ∈ seen
      · exact Or.inl hy
      · right; unfold dedupKeepFirst; rw [if_neg hy]; exact List.mem_cons_self _ _
    · unfold dedupKeepFirst
      by_cases hy : y ∈ seen
      · rw [if_pos hy]; exact mem_dedupKeepFirst seen ys hmem
      · rw [if_neg hy]
        rcases mem_dedupKeepFirst (y :: seen) ys hmem with hin | hin
        · rcases List.mem_cons.1 hin with rfl | hin2
          · exact Or.inr (List.mem_cons_self _ _)
          · exact Or.inl hin2
        · exact Or.inr (List.mem_cons_of_mem _ hin)

lemma mem_slotsInOrder {s : Schedule} {a : ActivityId} {sl : TimeSlot}
    (h : (a, sl) ∈ s) : sl ∈ slotsInOrder s := by
  have hmem : sl ∈ s.map Prod.snd := List.mem_map_of_mem Prod.snd h
  rcases mem_dedupKeepFirst [] (s.map Prod.snd) hmem with hin | hin
  · cases hin
  · exact hin

lemma one_lt_length_of_two_mem {α : Type} {l : List α} {a b : α}
    (ha : a ∈ l) (hb : b ∈ l) (hab : a ≠ b) : 1 < l.length := by
  match l with
  | [] => cases ha
  | [x] =>
    rcases List.mem_singleton.1 ha with rfl
    rcases List.mem_singleton.1 hb with rfl
    exact absurd rfl hab
  | x :: y :: rest => simp [List.length_cons]

lemma has_duplicates_of_shared {l : List ActivityId} {f : ActivityId → Nat} {a b : ActivityId}
    (ha : a ∈ l) (hb : b ∈ l) (hab : a ≠ b) (hf : f a = f b) :
    has_duplicates (l.map f) = true := by
  unfold has_duplicates
  rw [decide_eq_true_eq]
  intro hlen
  have hsub : (l.map f).dedup.Sublist (l.map f) := List.dedup_sublist _
  have heq : (l.map f).dedup = l.map f := hsub.eq_of_length hlen
  have hnodup : (l.map f).Nodup := heq ▸ List.nodup_dedup _
  exact hab (List.inj_on_of_nodup_map hnodup ha hb hf)

lemma violations_at_slot_ne_nil {s : Schedule} {sl : TimeSlot} {a b : ActivityId}
    (ha : a ∈ idsAtSlot s sl) (hb : b ∈ idsAtSlot s sl) (hab : a ≠ b)
    (hshare : get_teacher_id a = get_teacher_id b ∨ get_room_id a = get_room_id b ∨
      get_section_id a = get_section_id b) :
    violations_at_slot s sl ≠ [] := by
  unfold violations_at_slot
  rw [if_pos (one_lt_length_of_two_mem ha hb hab)]
  intro hnil
  rcases List.append_eq_nil.1 hnil with ⟨h12, h3⟩
  rcases List.append_eq_nil.1 h12 with ⟨h1, h2⟩
  rcases hshare with hf | hf | hf
  · rw [has_duplicates_of_shared ha hb hab hf] at h1; simp at h1
  · rw [has_duplicates_of_shared ha hb hab hf] at h2; simp at h2
  · rw [has_duplicates_of_shared ha hb hab hf] at h3; simp at h3

/-- **C1.** In any schedule on which `validate_hard_constraints` reports
zero violations, every two distinct activities that share a teacher, a
room, or a section are assigned unequal time slots. -/
theorem zero_hard_violations_no_shared_resource_clash
    (s : Schedule) (h : validate_hard_constraints s = [])
    (a b : ActivityId) (sa sb : TimeSlot)
    (ha : (a, sa) ∈ s) (hb : (b, sb) ∈ s) (hab : a ≠ b)
    (hshare : get_teacher_id a = get_teacher_id b ∨ get_room_id a = get_room_id b ∨
      get_section_id a = get_section_id b) :
    sa ≠ sb := by
  intro hslots
  subst hslots
  have hsl : sa ∈ slotsInOrder s := mem_slotsInOrder ha
  have hempty : violations_at_slot s sa = [] := by
    have := List.flatMap_eq_nil_iff.1 h
    exact this sa hsl
  exact violations_at_slot_ne_nil (mem_idsAtSlot ha) (mem_idsAtSlot hb) hab hshare hempty

/-- Witness for C1 at a concrete schedule: two activities sharing
teacher 7, assigned distinct slots, validate cleanly, and the theorem
yields that their slots differ. -/
theorem zero_hard_violations_no_shared_resource_clash_witness :
    validate_hard_constraints
      [(⟨1, 7, 2, 3, 0⟩, ⟨"Monday", 1⟩), (⟨2, 7, 4, 3, 0⟩, ⟨"Monday", 2⟩)] = [] ∧
    (⟨"Monday", 1⟩ : TimeSlot) ≠ ⟨"Monday", 2⟩ := by
  refine ⟨by decide, ?_⟩
  exact zero_hard_violations_no_shared_resource_clash
    [(⟨1, 7, 2, 3, 0⟩, ⟨"Monday", 1⟩), (⟨2, 7, 4, 3, 0⟩, ⟨"Monday", 2⟩)]
    (by decide) ⟨1, 7, 2, 3, 0⟩ ⟨2, 7, 4, 3, 0⟩ ⟨"Monday", 1⟩ ⟨"Monday", 2⟩
    (by decide) (by decide) (by decide) (Or.inl rfl)

/-! ## Soft-constraint scoring (`ConstraintManager`, source lines 117-231) -/

/-- `soft_constraints['morning_preference']` (source line 72). -/
def morning_preference_weight : ℚ := 10

/-- `soft_constraints['workload_balance']` (source line 73). -/
def workload_balance_weight : ℚ := 5

/-- `soft_constraints['schedule_continuity']` (source line 74). -/
def schedule_continuity_weight : ℚ := 8

/-- `soft_constraints['lab_optimization']` (source line 75). -/
def lab_optimization_weight : ℚ := 15

/-- `soft_constraints['teacher_preference']` (source line 76). -/
def teacher_preference_weight : ℚ := 3

/-- `is_lab_activity` (source lines 225-227): the source stub always
returns `False`. -/
def is_lab_activity (_ : ActivityId) : Bool := false

/-- `teacher_prefers_time` (source lines 229-231): the source stub always
returns `True`. -/
def teacher_prefers_time (_ : Nat) (_ : TimeSlot) : Bool := true

/-- `morning_preference_score` (source lines 138-145), with the draws of
ONE evaluation abstracted as the oracle `d`.  Beware: the source's
`get_subject_difficulty` (line 223) returns a fresh `random.random()`
per call, so two evaluations of the same schedule need not agree; the
faithful cross-call model is `morning_preference_score_stream` below,
and this fixed-`d` version is only used where a single evaluation's
draws are being named. -/
def morning_preference_score (d : ActivityId → ℚ) (s : Schedule) : ℚ :=
  (s.map (fun e => if e.2.period ≤ 3 then d e.1 * morning_preference_weight else 0)).sum

/-- The distinct teacher ids in first-appearance order (keys of
`teacher_daily_load`, source lines 149-153). -/
def teachersInOrder (s : Schedule) : List Nat :=
  dedupKeepFirst [] (s.map (fun e => get_teacher_id e.1))

/-- The distinct days a teacher teaches, in first-appearance order
(keys of `teacher_daily_load[teacher_id]`). -/
def teacherDays (s : Schedule) (t : Nat) : List String :=
  dedupKeepFirst [] ((s.filter (fun e => decide (get_teacher_id e.1 = t))).map (fun e => e.2.day))

/-- `teacher_daily_load[teacher_id][day]` (source line 153). -/
def teacher_daily_load (s : Schedule) (t : Nat) (day : String) : ℚ :=
  ((s.filter (fun e => decide (get_teacher_id e.1 = t ∧ e.2.day = day))).length : ℚ)

/-- `mean_load` (source line 160). -/
def mean_load (loads : List ℚ) : ℚ := loads.sum / (loads.length : ℚ)

/-- `variance` (source line 161). -/
def load_variance (loads : List ℚ) : ℚ :=
  ((loads.map (fun l => (l - mean_load loads) ^ 2)).sum) / (loads.length : ℚ)

/-- `workload_balance_score` (source lines 147-164): a teacher whose
daily-load list has length at most one contributes no variance. -/
def workload_balance_score (s : Schedule) : ℚ :=
  -(((teachersInOrder s).map (fun t =>
      let loads := (teacherDays s t).map (teacher_daily_load s t)
      if 1 < loads.length then load_variance loads else 0)).sum) * workload_balance_weight

/-- The distinct section ids in first-appearance order (keys of
`section_schedules`, source lines 168-172). -/
def sectionsInOrder (s : Schedule) : List Nat :=
  dedupKeepFirst [] (s.map (fun e => get_section_id e.1))

/-- All periods assigned to one section, across all days, in schedule
order (source line 172: the day is ignored when collecting periods). -/
def section_periods (s : Schedule) (sec : Nat) : List Nat :=
  (s.filter (fun e => decide (get_section_id e.1 = sec))).map (fun e => e.2.period)

/-- Insertion step of an ascending sort (`periods.sort()`, line 176). -/
def insertAsc (x : Nat) : List Nat → List Nat
  | [] => [x]
  | y :: ys => if x ≤ y then x :: y :: ys else y :: insertAsc x ys

/-- `periods.sort()` (source line 176). -/
def sortAsc (l : List Nat) : List Nat := l.foldr insertAsc []

/-- The gap count of a sorted period list (source lines 177-180). -/
def gaps_from_sorted : List Nat → Nat
  | [] => 0
  | [_] => 0
  | a :: b :: rest => (if 1 < b - a then b - a - 1 else 0) + gaps_from_sorted (b :: rest)

/-- `schedule_continuity_score` (source lines 166-183). -/
def schedule_continuity_score (s : Schedule) : ℚ :=
  ((sectionsInOrder s).map (fun sec =>
    -((gaps_from_sorted (sortAsc (section_periods s sec)) : ℚ) * schedule_continuity_weight))).sum

/-- `lab_optimization_score` (source lines 185-197).  The `none` branch
is unreachable: the ids are drawn from the schedule's own keys. -/
def lab_optimization_score (s : Schedule) : ℚ :=
  (((s.map Prod.fst).filter is_lab_activity).map (fun aid =>
    match slookup aid s with
    | some sl =>
        if (⟨sl.day, sl.period + 1⟩ : TimeSlot) ∈ s.map Prod.snd then lab_optimization_weight else 0
    | none => 0)).sum

/-- `teacher_preference_score` (source lines 199-206). -/
def teacher_preference_score (s : Schedule) : ℚ :=
  (s.map (fun e =>
    if teacher_prefers_time (get_teacher_id e.1) e.2 then teacher_preference_weight else 0)).sum

/-- `evaluate_soft_constraints` (source lines 117-136). -/
def evaluate_soft_constraints (d : ActivityId → ℚ) (s : Schedule) : ℚ :=
  morning_preference_score d s + workload_balance_score s + schedule_continuity_score s
    + lab_optimization_score s + teacher_preference_score s

/-! ## Population fitness (`evaluate_population_fitness`, source lines 674-695) -/

/-- `sum(v.penalty for v in violations)` (source line 681). -/
def hard_penalty_sum (s : Schedule) : ℚ :=
  ((validate_hard_constraints s).map ConstraintViolation.penalty).sum

/-- The per-individual fitness of `evaluate_population_fitness`
(source lines 678-693): `-hard_penalty` when `hard_penalty > 0`, else
the soft score. -/
def fitness_of (d : ActivityId → ℚ) (s : Schedule) : ℚ :=
  if 0 < hard_penalty_sum s then -(hard_penalty_sum s) else evaluate_soft_constraints d s

/-- `evaluate_population_fitness` (source lines 674-695). -/
def evaluate_population_fitness (d : ActivityId → ℚ) (pop : List Schedule) : List ℚ :=
  pop.map (fitness_of d)

lemma penalty_eq_of_mem_violations_at_slot {s : Schedule} {sl : TimeSlot}
    {v : ConstraintViolation} (h : v ∈ violations_at_slot s sl) : v.penalty = 1000 := by
  unfold violations_at_slot at h
  by_cases hlen : 1 < (idsAtSlot s sl).length
  · rw [if_pos hlen] at h
    rcases List.mem_append.1 h with h12 | h3
    · rcases List.mem_append.1 h12 with h1 | h2
      · split at h1
        · rcases List.mem_singleton.1 h1 with rfl; rfl
        · cases h1
      · split at h2
        · rcases List.mem_singleton.1 h2 with rfl; rfl
        · cases h2
    · split at h3
      · rcases List.mem_singleton.1 h3 with rfl; rfl
      · cases h3
  · rw [if_neg hlen] at h; cases h

lemma penalty_eq_of_mem_validate {s : Schedule} {v : ConstraintViolation}
    (h : v ∈ validate_hard_constraints s) : v.penalty = 1000 := by
  unfold validate_hard_constraints at h
  rcases List.mem_flatMap.1 h with ⟨sl, _, hv⟩
  exact penalty_eq_of_mem_violations_at_slot hv

lemma hard_penalty_sum_pos {s : Schedule}
    (h : validate_hard_constraints s ≠ []) : 0 < hard_penalty_sum s := by
  unfold hard_penalty_sum
  match hval : validate_hard_constraints s with
  | [] => exact absurd hval h
  | v :: rest =>
    have hv : v.penalty = 1000 := penalty_eq_of_mem_validate (hval ▸ List.mem_cons_self v rest)
    have hrest : ∀ w ∈ rest, (0 : ℚ) ≤ w.penalty := by
      intro w hw
      have : w.penalty = 1000 :=
        penalty_eq_of_mem_validate (hval ▸ List.mem_cons_of_mem v hw)
      rw [this]; norm_num
    have hsum : 0 ≤ (rest.map ConstraintViolation.penalty).sum := by
      apply List.sum_nonneg
      intro x hx
      rcases List.mem_map.1 hx with ⟨w, hw, rfl⟩
      exact hrest w hw
    simp only [List.map_cons, List.sum_cons, hv]
    linarith

lemma hard_penalty_sum_eq_zero {s : Schedule}
    (h : validate_hard_constraints s = []) : hard_penalty_sum s = 0 := by
  unfold hard_penalty_sum
  rw [h]; rfl

/-- **C2 (amended).** `evaluate_population_fitness` maps each schedule to
`-sum(hard penalties)` when a hard violation exists and to the soft score
otherwise; a violation-free schedule strictly outranks a violating one
*whenever its soft score exceeds the negated penalty sum of the other*
(the ordering is conditional, not unconditional: soft scores can drop
below `-1000`). -/
theorem fitness_definition_and_conditional_ordering :
    (∀ d pop, evaluate_population_fitness d pop = pop.map (fitness_of d)) ∧
    (∀ d s, validate_hard_constraints s ≠ [] → fitness_of d s = -(hard_penalty_sum s)) ∧
    (∀ d s, validate_hard_constraints s = [] → fitness_of d s = evaluate_soft_constraints d s) ∧
    (∀ d s t, validate_hard_constraints s = [] → validate_hard_constraints t ≠ [] →
      -(hard_penalty_sum t) < evaluate_soft_constraints d s →
      fitness_of d t < fitness_of d s) := by
  refine ⟨fun d pop => rfl, ?_, ?_, ?_⟩
  · intro d s h
    unfold fitness_of
    rw [if_pos (hard_penalty_sum_pos h)]
  · intro d s h
    unfold fitness_of
    rw [hard_penalty_sum_eq_zero h]
    norm_num
  · intro d s t hs ht hord
    unfold fitness_of
    rw [if_pos (hard_penalty_sum_pos ht), hard_penalty_sum_eq_zero hs, if_neg (by norm_num)]
    exact hord

/-- Witness for C2 (amended) at concrete schedules: a clean one-activity
schedule (soft score `3`) strictly outranks a teacher-clash schedule
(fitness `-1000`). -/
theorem fitness_definition_and_conditional_ordering_witness :
    fitness_of (fun _ => 0)
        [(⟨1, 5, 1, 0, 0⟩, ⟨"Monday", 1⟩), (⟨2, 5, 2, 0, 0⟩, ⟨"Monday", 1⟩)] <
      fitness_of (fun _ => 0) [(⟨1, 1, 1, 0, 0⟩, ⟨"Monday", 4⟩)] :=
  fitness_definition_and_conditional_ordering.2.2.2 (fun _ => 0)
    [(⟨1, 1, 1, 0, 0⟩, ⟨"Monday", 4⟩)]
    [(⟨1, 5, 1, 0, 0⟩, ⟨"Monday", 1⟩), (⟨2, 5, 2, 0, 0⟩, ⟨"Monday", 1⟩)]
    (by decide) (by decide) (by decide)

/-- A 28-activity schedule with zero hard violations whose soft score is
`-1036`: 14 sections, each holding one class at period 1 and one at
period 12 of the same Monday (a 10-period continuity gap per section). -/
def feasibleLowScoreSchedule : Schedule :=
  (List.range 14).flatMap (fun i =>
    [(⟨i, i, i, 0, 0⟩, ⟨"Monday", 1⟩), (⟨i, i, i, 0, 1⟩, ⟨"Monday", 12⟩)])

/-- A schedule with exactly one hard violation (teacher 5 double-booked),
hence fitness `-1000`. -/
def oneClashSchedule : Schedule :=
  [(⟨1, 5, 1, 0, 0⟩, ⟨"Monday", 1⟩), (⟨2, 5, 2, 0, 0⟩, ⟨"Monday", 1⟩)]

set_option maxHeartbeats 1600000 in
set_option maxRecDepth 10000 in
/-- **C2 counterexample.** A violation-free schedule whose fitness
(`-1036`) is NOT strictly greater than the fitness (`-1000`) of a
schedule with a hard violation: the claimed unconditional strict
ordering fails. -/
theorem population_fitness_ordering_counterexample :
    validate_hard_constraints feasibleLowScoreSchedule = [] ∧
    validate_hard_constraints oneClashSchedule ≠ [] ∧
    ¬ (fitness_of (fun _ => 0) oneClashSchedule <
        fitness_of (fun _ => 0) feasibleLowScoreSchedule) := by
  refine ⟨by decide, by decide, by decide⟩

/-! ## Genetic operators (`GeneticOperators`, source lines 234-373) -/

/-- `GeneticOperators.can_assign` (source lines 294-304): an activity may
take a slot iff no existing assignment at the same slot shares its
teacher, room, or section. -/
def can_assign (aid : ActivityId) (sl : TimeSlot) (sched : Schedule) : Bool :=
  sched.all (fun e =>
    !(decide (e.2 = sl) && decide (get_teacher_id aid = get_teacher_id e.1 ∨
        get_room_id aid = get_room_id e.1 ∨ get_section_id aid = get_section_id e.1)))

lemma slookup_mem {a : ActivityId} {s : Schedule} {t : TimeSlot}
    (h : slookup a s = some t) : (a, t) ∈ s := by
  induction s with
  | nil => cases h
  | cons e rest ih =>
    unfold slookup at h
    by_cases he : e.1 = a
    · rw [if_pos he] at h
      cases h
      have he2 : e = (a, e.2) := by
        cases e
        simp only at he
        rw [he]
      rw [← he2]
      exact List.mem_cons_self _ _
    · rw [if_neg he] at h
      exact List.mem_cons_of_mem _ (ih h)

lemma mem_keys_slookup {a : ActivityId} {s : Schedule}
    (h : a ∈ s.map Prod.fst) : ∃ t, slookup a s = some t := by
  induction s with
  | nil => cases h
  | cons e rest ih =>
    unfold slookup
    by_cases he : e.1 = a
    · exact ⟨e.2, if_pos he⟩
    · rcases List.mem_cons.1 h with heq | hmem
      · exact absurd heq.symm he
      · rw [if_neg he]; exact ih hmem

lemma mem_sched_insert_self {a : ActivityId} {s : Schedule} {t sl : TimeSlot}
    (h : slookup a s = some t) : (a, sl) ∈ sched_insert a sl s := by
  induction s with
  | nil => cases h
  | cons e rest ih =>
    unfold slookup at h
    unfold sched_insert
    by_cases he : e.1 = a
    · rw [if_pos he]; exact List.mem_cons_self _ _
    · rw [if_neg he] at h
      rw [if_neg he]
      exact List.mem_cons_of_mem _ (ih h)

lemma mem_sched_insert_of_ne {a b : ActivityId} {s : Schedule} {t sl : TimeSlot}
    (h : (a, t) ∈ s) (hab : a ≠ b) : (a, t) ∈ sched_insert b sl s := by
  induction s with
  | nil => cases h
  | cons e rest ih =>
    unfold sched_insert
    by_cases he : e.1 = b
    · rw [if_pos he]
      rcases List.mem_cons.1 h with heq | hmem
      · exact absurd (by rw [← heq] at he; simpa using he) hab
      · exact List.mem_cons_of_mem _ hmem
    · rw [if_neg he]
      rcases List.mem_cons.1 h with heq | hmem
      · rw [heq]; exact List.mem_cons_self _ _
      · exact List.mem_cons_of_mem _ (ih hmem)

lemma can_assign_self_mem {a : ActivityId} {sl : TimeSlot} {s : Schedule}
    (h : (a, sl) ∈ s) : can_assign a sl s = false := by
  unfold can_assign
  apply List.all_eq_false.2
  refine ⟨(a, sl), h, ?_⟩
  simp

/-- `GeneticOperators.can_exchange` (source lines 349-361): build the
temporary schedule with the two slots exchanged, then re-check both
assignments against it.  Absent keys (a `KeyError` in the source) are
unreachable at the call site and mapped to `false`. -/
def can_exchange (a1 a2 : ActivityId) (sched : Schedule) : Bool :=
  match slookup a1 sched, slookup a2 sched with
  | some sl1, some sl2 =>
    let temp := sched_insert a2 sl1 (sched_insert a1 sl2 sched)
    can_assign a1 sl2 temp && can_assign a2 sl1 temp
  | _, _ => false

/-- `GeneticOperators.find_compatible_activities` (source lines 339-347). -/
def find_compatible_activities (aid : ActivityId) (sched : Schedule) : List ActivityId :=
  (sched.map Prod.fst).filter (fun other => decide (other ≠ aid) && can_exchange aid other sched)

/-- The simultaneous slot swap
`mutated[a], mutated[b] = mutated[b], mutated[a]` (source lines 289-290). -/
def swap_slots (sched : Schedule) (a b : ActivityId) : Schedule :=
  match slookup a sched, slookup b sched with
  | some sa, some sb => sched_insert b sa (sched_insert a sb sched)
  | _, _ => sched

/-- The `'exchange'` arm of `GeneticOperators.mutate` (source lines
284-290): find compatible activities, and if any exist exchange with one
chosen by `random.choice` (abstracted as the picker `pick`). -/
def mutate_exchange_branch (pick : List ActivityId → ActivityId) (aid : ActivityId)
    (mutated : Schedule) : Schedule :=
  let compatible := find_compatible_activities aid mutated
  if compatible.isEmpty then mutated
  else swap_slots mutated aid (pick compatible)

lemma can_exchange_false {sched : Schedule} {a b : ActivityId}
    (hab : a ≠ b) (ha : a ∈ sched.map Prod.fst) (hb : b ∈ sched.map Prod.fst) :
    can_exchange a b sched = false := by
  rcases mem_keys_slookup ha with ⟨sa, hsa⟩
  rcases mem_keys_slookup hb with ⟨sb, hsb⟩
  unfold can_exchange
  rw [hsa, hsb]
  have hmem : (a, sb) ∈ sched_insert b sa (sched_insert a sb sched) :=
    mem_sched_insert_of_ne (mem_sched_insert_self hsa) hab
  simp only [can_assign_self_mem hmem, Bool.false_and]

/-- **C10.** For every schedule and every two distinct assigned activity
ids, `can_exchange` returns `False` (the temporary exchanged schedule
still contains the activity itself at the proposed slot, and an activity
shares its own teacher); hence `find_compatible_activities` is always
empty and the `'exchange'` mutation arm never modifies a schedule. -/
theorem exchange_mutation_is_noop (sched : Schedule) (a b : ActivityId)
    (hab : a ≠ b) (ha : a ∈ sched.map Prod.fst) (hb : b ∈ sched.map Prod.fst) :
    can_exchange a b sched = false ∧
    find_compatible_activities a sched = [] ∧
    (∀ pick, mutate_exchange_branch pick a sched = sched) := by
  refine ⟨can_exchange_false hab ha hb, ?_, ?_⟩
  · unfold find_compatible_activities
    apply List.filter_eq_nil_iff.2
    intro other hother
    by_cases hne : other = a
    · simp [hne]
    · simp only [Bool.and_eq_true, decide_eq_true_eq]
      intro hcontr
      rcases hcontr with ⟨_, hex⟩
      rw [can_exchange_false (Ne.symm hne) ha hother] at hex
      cases hex
  · intro pick
    unfold mutate_exchange_branch
    have hnil : find_compatible_activities a sched = [] := by
      apply List.filter_eq_nil_iff.2
      intro other hother
      by_cases hne : other = a
      · simp [hne]
      · simp only [Bool.and_eq_true, decide_eq_true_eq]
        intro hcontr
        rcases hcontr with ⟨_, hex⟩
        rw [can_exchange_false (Ne.symm hne) ha hother] at hex
        cases hex
    rw [hnil]
    rfl

/-- Witness for C10 at a concrete two-activity schedule. -/
theorem exchange_mutation_is_noop_witness :
    can_exchange ⟨1, 1, 1, 1, 0⟩ ⟨2, 2, 2, 2, 0⟩
        [(⟨1, 1, 1, 1, 0⟩, ⟨"Monday", 1⟩), (⟨2, 2, 2, 2, 0⟩, ⟨"Monday", 2⟩)] = false ∧
    find_compatible_activities ⟨1, 1, 1, 1, 0⟩
        [(⟨1, 1, 1, 1, 0⟩, ⟨"Monday", 1⟩), (⟨2, 2, 2, 2, 0⟩, ⟨"Monday", 2⟩)] = [] ∧
    (∀ pick, mutate_exchange_branch pick ⟨1, 1, 1, 1, 0⟩
        [(⟨1, 1, 1, 1, 0⟩, ⟨"Monday", 1⟩), (⟨2, 2, 2, 2, 0⟩, ⟨"Monday", 2⟩)] =
      [(⟨1, 1, 1, 1, 0⟩, ⟨"Monday", 1⟩), (⟨2, 2, 2, 2, 0⟩, ⟨"Monday", 2⟩)]) :=
  exchange_mutation_is_noop
    [(⟨1, 1, 1, 1, 0⟩, ⟨"Monday", 1⟩), (⟨2, 2, 2, 2, 0⟩, ⟨"Monday", 2⟩)]
    ⟨1, 1, 1, 1, 0⟩ ⟨2, 2, 2, 2, 0⟩ (by decide) (by decide) (by decide)

/-- `GeneticOperators.get_random_valid_slot` (source lines 322-337): up
to `tries` (the source uses 20) draws from the injected random slot
stream `g` at position `n` (each Python draw is `random.choice` over the
Monday-Friday day list and the period range 1-8; `g` abstracts that
generator and `n` its state), returning the first draw that
`can_assign` accepts, together with the advanced stream position. -/
def get_random_valid_slot (g : Nat → TimeSlot) (aid : ActivityId) (sched : Schedule) :
    Nat → Nat → Option TimeSlot × Nat
  | n, 0 => (none, n)
  | n, tries + 1 =>
    let sl := g n
    if can_assign aid sl sched then (some sl, n + 1)
    else get_random_valid_slot g aid sched (n + 1) tries

/-- The bounded retry loop of `find_best_available_slot`
(source lines 314-318): up to 10 calls of `get_random_valid_slot`. -/
def fbas_attempts (g : Nat → TimeSlot) (aid : ActivityId) (sched : Schedule) :
    Nat → Nat → Option TimeSlot × Nat
  | 0, n => (none, n)
  | k + 1, n =>
    match get_random_valid_slot g aid sched n 20 with
    | (some sl, m) => (some sl, m)
    | (none, m) => fbas_attempts g aid sched k m

/-- `GeneticOperators.find_best_available_slot` (source lines 306-320):
prefer the reference parent's slot when conflict-free, otherwise fall
back to bounded random retries. -/
def find_best_available_slot (g : Nat → TimeSlot) (aid : ActivityId)
    (current reference : Schedule) (n : Nat) : Option TimeSlot × Nat :=
  match slookup aid reference with
  | some ref_slot =>
    if can_assign aid ref_slot current then (some ref_slot, n)
    else fbas_attempts g aid current 10 n
  | none => fbas_attempts g aid current 10 n

/-- The first loop of `GeneticOperators.crossover` (source lines
248-252): copy the prefix from parent 1, keeping only conflict-free
assignments.  The `none` branch is unreachable (ids are parent-1 keys). -/
def crossover_first_part (p1 : Schedule) : List ActivityId → Schedule → Schedule
  | [], child => child
  | aid :: rest, child =>
    match slookup aid p1 with
    | some sl =>
      if can_assign aid sl child then crossover_first_part p1 rest (sched_insert aid sl child)
      else crossover_first_part p1 rest child
    | none => crossover_first_part p1 rest child

/-- The second loop of `GeneticOperators.crossover` (source lines
254-259): fill the suffix from parent 2 via `find_best_available_slot`,
leaving an activity unassigned when no slot is found. -/
def crossover_second_part (g : Nat → TimeSlot) (p2 : Schedule) :
    List ActivityId → Schedule → Nat → Schedule × Nat
  | [], child, n => (child, n)
  | aid :: rest, child, n =>
    if aid ∈ child.map Prod.fst then crossover_second_part g p2 rest child n
    else
      match find_best_available_slot g aid child p2 n with
      | (some sl, m) => crossover_second_part g p2 rest (sched_insert aid sl child) m
      | (none, m) => crossover_second_part g p2 rest child m

/-- `GeneticOperators.crossover` (source lines 240-261).  The random
crossover point `random.randint(0, len(activities))` is the explicit
parameter `pt`; `g`/`n` feed the random slot draws of the repair loop. -/
def crossover (g : Nat → TimeSlot) (p1 p2 : Schedule) (pt : Nat) (n : Nat) : Schedule × Nat :=
  let activities := p1.map Prod.fst
  let child := crossover_first_part p1 (activities.take pt) []
  crossover_second_part g p2 (activities.drop pt) child n

lemma keys_sched_insert {x a : ActivityId} {sl : TimeSlot} {s : Schedule}
    (h : x ∈ (sched_insert a sl s).map Prod.fst) : x = a ∨ x ∈ s.map Prod.fst := by
  induction s with
  | nil =>
    unfold sched_insert at h
    simp at h
    exact Or.inl h
  | cons e rest ih =>
    unfold sched_insert at h
    by_cases hea : e.1 = a
    · rw [if_pos hea] at h
      simp only [List.map_cons, List.mem_cons] at h
      rcases h with rfl | hmem
      · exact Or.inl rfl
      · exact Or.inr (by simp only [List.map_cons, List.mem_cons]; exact Or.inr hmem)
    · rw [if_neg hea] at h
      simp only [List.map_cons, List.mem_cons] at h
      rcases h with rfl | hmem
      · exact Or.inr (by simp)
      · rcases ih hmem with hxa | hxs
        · exact Or.inl hxa
        · exact Or.inr (by simp only [List.map_cons, List.mem_cons]; exact Or.inr hxs)

lemma keys_crossover_first_part {p1 : Schedule} {ids : List ActivityId} {child : Schedule}
    {x : ActivityId} (h : x ∈ (crossover_first_part p1 ids child).map Prod.fst) :
    x ∈ ids ∨ x ∈ child.map Prod.fst := by
  induction ids generalizing child with
  | nil => exact Or.inr h
  | cons aid rest ih =>
    unfold crossover_first_part at h
    split at h
    · split at h
      · rcases ih h with hi | hc
        · exact Or.inl (List.mem_cons_of_mem _ hi)
        · rcases keys_sched_insert hc with rfl | hcc
          · exact Or.inl (List.mem_cons_self _ _)
          · exact Or.inr hcc
      · rcases ih h with hi | hc
        · exact Or.inl (List.mem_cons_of_mem _ hi)
        · exact Or.inr hc
    · rcases ih h with hi | hc
      · exact Or.inl (List.mem_cons_of_mem _ hi)
      · exact Or.inr hc

lemma keys_crossover_second_part {g : Nat → TimeSlot} {p2 : Schedule}
    {ids : List ActivityId} {child : Schedule} {n : Nat} {x : ActivityId}
    (h : x ∈ ((crossover_second_part g p2 ids child n).1).map Prod.fst) :
    x ∈ ids ∨ x ∈ child.map Prod.fst := by
  induction ids generalizing child n with
  | nil => exact Or.inr h
  | cons aid rest ih =>
    unfold crossover_second_part at h
    by_cases hmem : aid ∈ child.map Prod.fst
    · rw [if_pos hmem] at h
      rcases ih h with hi | hc
      · exact Or.inl (List.mem_cons_of_mem _ hi)
      · exact Or.inr hc
    · rw [if_neg hmem] at h
      split at h
      · rcases ih h with hi | hc
        · exact Or.inl (List.mem_cons_of_mem _ hi)
        · rcases keys_sched_insert hc with rfl | hcc
          · exact Or.inl (List.mem_cons_self _ _)
          · exact Or.inr hcc
      · rcases ih h with hi | hc
        · exact Or.inl (List.mem_cons_of_mem _ hi)
        · exact Or.inr hc

/-- **C3 (amended).** The id set of a crossover child is always a
*subset* of the parents' id set; equality (and hence cardinality
preservation) is not guaranteed, because conflicted activities can be
left unassigned when the bounded repair fails. -/
theorem crossover_child_ids_subset (g : Nat → TimeSlot) (p1 p2 : Schedule) (pt n : Nat) :
    ∀ aid ∈ ((crossover g p1 p2 pt n).1).map Prod.fst, aid ∈ p1.map Prod.fst := by
  intro aid h
  unfold crossover at h
  rcases keys_crossover_second_part h with hdrop | hchild
  · exact List.drop_subset pt _ hdrop
  · rcases keys_crossover_first_part hchild with htake | hnil
    · exact List.take_subset pt _ htake
    · simp at hnil

/-- Conflict-free parent schedule A for the crossover counterexample:
two activities of one teacher at distinct Monday slots. -/
def crossoverParentA : Schedule :=
  [(⟨1, 1, 1, 1, 0⟩, ⟨"Monday", 1⟩), (⟨2, 1, 2, 2, 0⟩, ⟨"Monday", 2⟩)]

/-- Parent B: the same two activities with the slots interchanged. -/
def crossoverParentB : Schedule :=
  [(⟨1, 1, 1, 1, 0⟩, ⟨"Monday", 2⟩), (⟨2, 1, 2, 2, 0⟩, ⟨"Monday", 1⟩)]

/-- Witness for C3 (amended): an id of a concretely computed crossover
child is an id of parent A. -/
theorem crossover_child_ids_subset_witness :
    (⟨1, 1, 1, 1, 0⟩ : ActivityId) ∈ crossoverParentA.map Prod.fst :=
  crossover_child_ids_subset (fun _ => ⟨"Monday", 1⟩) crossoverParentA crossoverParentB 1 0
    ⟨1, 1, 1, 1, 0⟩ (by decide)

/-- **C3 counterexample.** Two violation-free parents over the same
two-activity id set for which crossover (crossover point 1, every random
draw giving Monday period 1) yields a child assigning only ONE activity:
the id set is not preserved. -/
theorem crossover_loses_activity_counterexample :
    crossoverParentA.map Prod.fst = crossoverParentB.map Prod.fst ∧
    validate_hard_constraints crossoverParentA = [] ∧
    validate_hard_constraints crossoverParentB = [] ∧
    ((crossover (fun _ => ⟨"Monday", 1⟩) crossoverParentA crossoverParentB 1 0).1).map Prod.fst
      = [⟨1, 1, 1, 1, 0⟩] := by
  refine ⟨by decide, by decide, by decide, by decide⟩

/-! ## Slot catalog (`get_available_slots`, source lines 929-960) -/

/-- `TimetableGenerator.get_available_slots` (source lines 929-960):
for each configured working day, periods 1 through 12 (the period count
is hardcoded to 12, line 937) in order.  The branchy `if` of the source
only computes the display `start_time`/`end_time` strings (period 5 is
labelled 13:00-14:00, the lunch hour) which are omitted here; the
period-5 lunch slot itself IS included in the returned list. -/
def get_available_slots (working_days : List String) : List TimeSlot :=
  working_days.flatMap (fun day => (List.range 12).map (fun i => ⟨day, i + 1⟩))

/-- The default `working_days` setting (source lines 932-934). -/
def defaultWorkingDays : List String :=
  ["Monday", "Tuesday", "Wednesday", "Thursday", "Friday"]

/-- **C7 (amended).** The slot catalog is a deterministic pure function
of the working-days list alone (periods-per-day is hardcoded to 12 and
no break period is excluded): it enumerates exactly the slots
`(day, period)` with `day` a working day and `1 ≤ period ≤ 12`, and its
length is `12 * |working_days|`. -/
theorem get_available_slots_full_grid (working_days : List String) :
    (get_available_slots working_days).length = 12 * working_days.length ∧
    (∀ d p, (⟨d, p⟩ : TimeSlot) ∈ get_available_slots working_days ↔
      d ∈ working_days ∧ 1 ≤ p ∧ p ≤ 12) := by
  constructor
  · induction working_days with
    | nil => rfl
    | cons day rest ih =>
      simp only [get_available_slots, List.flatMap_cons, List.length_append,
        List.length_map, List.length_range, List.length_cons] at ih ⊢
      omega
  · intro d p
    simp only [get_available_slots, List.mem_flatMap, List.mem_map, List.mem_range,
      TimeSlot.mk.injEq]
    constructor
    · rintro ⟨day, hday, i, hi, rfl, rfl⟩
      exact ⟨hday, by omega, by omega⟩
    · rintro ⟨hd, hp1, hp12⟩
      exact ⟨d, hd, p - 1, by omega, rfl, by omega⟩

/-- Witness for C7 (amended) at the default five-day configuration. -/
theorem get_available_slots_full_grid_witness :
    (get_available_slots defaultWorkingDays).length = 12 * defaultWorkingDays.length ∧
    ((⟨"Monday", 12⟩ : TimeSlot) ∈ get_available_slots defaultWorkingDays ↔
      "Monday" ∈ defaultWorkingDays ∧ 1 ≤ 12 ∧ 12 ≤ 12) :=
  ⟨(get_available_slots_full_grid defaultWorkingDays).1,
    (get_available_slots_full_grid defaultWorkingDays).2 "Monday" 12⟩

/-- **C7 counterexample.** With the default configuration the catalog
contains the break slot (Monday, period 5) and has 60 entries, not the
claimed `|working_days| * (periods_per_day - number_of_breaks) = 55`. -/
theorem slot_catalog_contains_break_counterexample :
    (⟨"Monday", 5⟩ : TimeSlot) ∈ get_available_slots defaultWorkingDays ∧
    (get_available_slots defaultWorkingDays).length = 60 ∧
    (get_available_slots defaultWorkingDays).length ≠ 5 * (12 - 1) := by
  refine ⟨by decide, by decide, by decide⟩

/-! ## Greedy constructor (`greedy_assignment`, source lines 457-531) -/

/-- `Activity` (source lines 32-47). -/
structure Activity where
  id : ActivityId
  sectionId : Nat
  teacherId : Nat
  subjectId : Option Nat
  courseId : Option Nat
  roomId : Nat
  duration : Nat := 1
  priority : Nat := 1
  constraints : List String := []
deriving DecidableEq, Repr

/-- The occupancy maps of `greedy_assignment` (source lines 472-478):
per-teacher / per-room / per-section sets of occupied `(day, period)`
pairs, plus the schedule built so far. -/
structure GreedyState where
  teacher_schedule : List (Nat × String × Nat)
  room_schedule : List (Nat × String × Nat)
  section_schedule : List (Nat × String × Nat)
  schedule : Schedule
deriving Repr

/-- The conflict test of the greedy loop (source lines 507-512). -/
def greedy_free (st : GreedyState) (a : Activity) (sl : TimeSlot) : Bool :=
  !(decide ((a.teacherId, sl.day, sl.period) ∈ st.teacher_schedule)) &&
  !(decide ((a.roomId, sl.day, sl.period) ∈ st.room_schedule)) &&
  !(decide ((a.sectionId, sl.day, sl.period) ∈ st.section_schedule))

/-- The slot search of the greedy loop (source lines 498-523): the first
catalog slot that is not the hardcoded lunch period 5 (lines 503-505)
and is conflict-free. -/
def greedy_pick (available_slots : List TimeSlot) (st : GreedyState) (a : Activity) :
    Option TimeSlot :=
  available_slots.find? (fun sl => decide (sl.period ≠ 5) && greedy_free st a sl)

/-- Processing one activity (source lines 495-528): assign the picked
slot and record the occupancy, or leave the state unchanged (the
`failed_count` path) when no slot fits. -/
def greedy_assign_one (available_slots : List TimeSlot) (st : GreedyState) (a : Activity) :
    GreedyState :=
  match greedy_pick available_slots st a with
  | some sl =>
    { teacher_schedule := (a.teacherId, sl.day, sl.period) :: st.teacher_schedule
      room_schedule := (a.roomId, sl.day, sl.period) :: st.room_schedule
      section_schedule := (a.sectionId, sl.day, sl.period) :: st.section_schedule
      schedule := sched_insert a.id sl st.schedule }
  | none => st

/-- First-appearance order of section ids: the key order of the
`section_activities` defaultdict (source lines 484-486). -/
def greedy_section_order (activities : List Activity) : List Nat :=
  dedupKeepFirst [] (activities.map (fun a => a.sectionId))

/-- Stable insertion for a priority-descending sort: an element goes
after existing elements of equal priority (Python `list.sort` with
`reverse=True` is stable, source line 493). -/
def insert_by_priority (a : Activity) : List Activity → List Activity
  | [] => [a]
  | b :: rest =>
    if b.priority ≤ a.priority then a :: b :: rest else b :: insert_by_priority a rest

/-- `section_acts.sort(key=lambda x: x.priority, reverse=True)`
(source line 493). -/
def sort_by_priority_desc (l : List Activity) : List Activity := l.foldr insert_by_priority []

/-- The overall processing order of `greedy_assignment` (source lines
483-495): sections in first-appearance order, each section's activities
in descending-priority (stable) order. -/
def greedy_order (activities : List Activity) : List Activity :=
  (greedy_section_order activities).flatMap (fun sec =>
    sort_by_priority_desc (activities.filter (fun a => decide (a.sectionId = sec))))

/-- `TimetableGenerator.greedy_assignment` (source lines 457-531) on the
already-created activity list and slot catalog (activity creation and
`get_available_slots` are composed in `greedy_full` below; an empty
activity list yields the empty schedule exactly as the early return at
lines 465-467 does). -/
def greedy_assignment (activities : List Activity) (available_slots : List TimeSlot) :
    GreedyState :=
  (greedy_order activities).foldl (greedy_assign_one available_slots) ⟨[], [], [], []⟩

/-- The slot search as claim C5 words it: the first catalog slot whose
teacher, room and section are all unoccupied, with NO lunch-period
exclusion.  Stated from the claim only, to exhibit the divergence. -/
def greedy_pick_as_claimed (available_slots : List TimeSlot) (st : GreedyState)
    (a : Activity) : Option TimeSlot :=
  available_slots.find? (fun sl => greedy_free st a sl)

/-- `greedy_assign_one` with the claim's slot search. -/
def greedy_assign_one_as_claimed (available_slots : List TimeSlot) (st : GreedyState)
    (a : Activity) : GreedyState :=
  match greedy_pick_as_claimed available_slots st a with
  | some sl =>
    { teacher_schedule := (a.teacherId, sl.day, sl.period) :: st.teacher_schedule
      room_schedule := (a.roomId, sl.day, sl.period) :: st.room_schedule
      section_schedule := (a.sectionId, sl.day, sl.period) :: st.section_schedule
      schedule := sched_insert a.id sl st.schedule }
  | none => st

/-- `greedy_assignment` with the claim's slot search. -/
def greedy_assignment_as_claimed (activities : List Activity)
    (available_slots : List TimeSlot) : GreedyState :=
  (greedy_order activities).foldl (greedy_assign_one_as_claimed available_slots) ⟨[], [], [], []⟩

/-- Five same-priority activities of one section, teacher and room. -/
def fiveSameSectionActivities : List Activity :=
  (List.range 5).map (fun i =>
    { id := ⟨1, 1, 1, 0, i⟩, sectionId := 1, teacherId := 1, subjectId := none,
      courseId := some 0, roomId := 1 })

/-- **C5 counterexample.** The fifth activity of a fully busy
section/teacher/room is assigned (Monday, 6) although (Monday, 5) comes
first in the catalog and its teacher, room and section are unoccupied
there: the code skips the lunch period, so it does NOT assign the first
conflict-free catalog slot (which the claim-faithful variant assigns). -/
theorem greedy_skips_free_lunch_slot_counterexample :
    slookup ⟨1, 1, 1, 0, 4⟩
        (greedy_assignment fiveSameSectionActivities
          (get_available_slots ["Monday"])).schedule = some ⟨"Monday", 6⟩ ∧
    slookup ⟨1, 1, 1, 0, 4⟩
        (greedy_assignment_as_claimed fiveSameSectionActivities
          (get_available_slots ["Monday"])).schedule = some ⟨"Monday", 5⟩ := by
  refine ⟨by decide, by decide⟩

/-- Activities produced by `create_activities` embed their section,
teacher and room ids in their activity-id string (source line 871);
greedy conflict checks read the fields, hard validation re-parses the
id, so the two views must agree. -/
def id_consistent (a : Activity) : Prop :=
  a.id.sectionId = a.sectionId ∧ a.id.teacherId = a.teacherId ∧ a.id.roomId = a.roomId

/-- No two distinct assigned activities sharing a teacher, room or
section occupy the same slot. -/
def no_double_booking (s : Schedule) : Prop :=
  ∀ e1 ∈ s, ∀ e2 ∈ s, e1.1 ≠ e2.1 →
    (get_teacher_id e1.1 = get_teacher_id e2.1 ∨ get_room_id e1.1 = get_room_id e2.1 ∨
      get_section_id e1.1 = get_section_id e2.1) → e1.2 ≠ e2.2

/-- Every schedule key stems from one of the input activities. -/
def greedy_covered (acts : List Activity) (st : GreedyState) : Prop :=
  ∀ e ∈ st.schedule, ∃ a, a ∈ acts ∧ a.id = e.1

/-- Every assignment is recorded in all three occupancy maps. -/
def greedy_busy_consistent (acts : List Activity) (st : GreedyState) : Prop :=
  ∀ a ∈ acts, ∀ sl, (a.id, sl) ∈ st.schedule →
    (a.teacherId, sl.day, sl.period) ∈ st.teacher_schedule ∧
    (a.roomId, sl.day, sl.period) ∈ st.room_schedule ∧
    (a.sectionId, sl.day, sl.period) ∈ st.section_schedule

/-- Distinct resource-sharing activities sit at distinct slots. -/
def greedy_pairwise (acts : List Activity) (st : GreedyState) : Prop :=
  ∀ a ∈ acts, ∀ b ∈ acts, a.id ≠ b.id →
    (a.teacherId = b.teacherId ∨ a.roomId = b.roomId ∨ a.sectionId = b.sectionId) →
    ∀ sa sb, (a.id, sa) ∈ st.schedule → (b.id, sb) ∈ st.schedule → sa ≠ sb

lemma mem_sched_insert_cases {x a : ActivityId} {t sl : TimeSlot} {s : Schedule}
    (h : (x, t) ∈ sched_insert a sl s) : (x = a ∧ t = sl) ∨ (x, t) ∈ s := by
  induction s with
  | nil =>
    unfold sched_insert at h
    rcases List.mem_singleton.1 h with heq
    injection heq with h1 h2
    exact Or.inl ⟨h1, h2⟩
  | cons e rest ih =>
    unfold sched_insert at h
    by_cases hea : e.1 = a
    · rw [if_pos hea] at h
      rcases List.mem_cons.1 h with heq | hmem
      · injection heq with h1 h2
        exact Or.inl ⟨h1, h2⟩
      · exact Or.inr (List.mem_cons_of_mem _ hmem)
    · rw [if_neg hea] at h
      rcases List.mem_cons.1 h with heq | hmem
      · exact Or.inr (heq ▸ List.mem_cons_self _ _)
      · rcases ih hmem with hl | hr
        · exact Or.inl hl
        · exact Or.inr (List.mem_cons_of_mem _ hr)

lemma activity_fields_eq_of_id_eq {a b : Activity} (ha : id_consistent a)
    (hb : id_consistent b) (h : a.id = b.id) :
    a.teacherId = b.teacherId ∧ a.roomId = b.roomId ∧ a.sectionId = b.sectionId := by
  rcases ha with ⟨has, hat, har⟩
  rcases hb with ⟨hbs, hbt, hbr⟩
  refine ⟨?_, ?_, ?_⟩
  · rw [← hat, ← hbt, h]
  · rw [← har, ← hbr, h]
  · rw [← has, ← hbs, h]

lemma greedy_free_spec {st : GreedyState} {b : Activity} {sl : TimeSlot}
    (h : greedy_free st b sl = true) :
    (b.teacherId, sl.day, sl.period) ∉ st.teacher_schedule ∧
    (b.roomId, sl.day, sl.period) ∉ st.room_schedule ∧
    (b.sectionId, sl.day, sl.period) ∉ st.section_schedule := by
  unfold greedy_free at h
  simp only [Bool.and_eq_true, Bool.not_eq_true', decide_eq_false_iff_not] at h
  exact ⟨h.1.1, h.1.2, h.2⟩

lemma greedy_assign_one_inv {acts : List Activity} {slots : List TimeSlot}
    {st : GreedyState} {b : Activity}
    (hcons : ∀ a ∈ acts, id_consistent a) (hb : b ∈ acts)
    (h1 : greedy_covered acts st) (h2 : greedy_busy_consistent acts st)
    (h3 : greedy_pairwise acts st) :
    greedy_covered acts (greedy_assign_one slots st b) ∧
    greedy_busy_consistent acts (greedy_assign_one slots st b) ∧
    greedy_pairwise acts (greedy_assign_one slots st b) := by
  unfold greedy_assign_one
  cases hpick : greedy_pick slots st b with
  | none => exact ⟨h1, h2, h3⟩
  | some sl =>
    have hfree : greedy_free st b sl = true := by
      unfold greedy_pick at hpick
      have hf := List.find?_some hpick
      simp only [Bool.and_eq_true] at hf
      exact hf.2
    rcases greedy_free_spec hfree with ⟨hfT, hfR, hfS⟩
    refine ⟨?_, ?_, ?_⟩
    · rintro ⟨x, t⟩ he
      rcases mem_sched_insert_cases he with ⟨rfl, rfl⟩ | hold
      · exact ⟨b, hb, rfl⟩
      · exact h1 (x, t) hold
    · intro a ha sl2 hmem2
      rcases mem_sched_insert_cases hmem2 with ⟨hid, rfl⟩ | hold
      · rcases activity_fields_eq_of_id_eq (hcons a ha) (hcons b hb) hid with ⟨ht, hr, hs⟩
        refine ⟨?_, ?_, ?_⟩
        · rw [ht]; exact List.mem_cons_self _ _
        · rw [hr]; exact List.mem_cons_self _ _
        · rw [hs]; exact List.mem_cons_self _ _
      · rcases h2 a ha sl2 hold with ⟨hT, hR, hS⟩
        exact ⟨List.mem_cons_of_mem _ hT, List.mem_cons_of_mem _ hR,
          List.mem_cons_of_mem _ hS⟩
    · intro a ha c hc hne hshare sa sb hma hmb
      rcases mem_sched_insert_cases hma with ⟨hida, rfl⟩ | holda
      · rcases mem_sched_insert_cases hmb with ⟨hidc, rfl⟩ | holdc
        · exact absurd (hida.trans hidc.symm) hne
        · intro heq
          rcases h2 c hc sb holdc with ⟨hT, hR, hS⟩
          rcases activity_fields_eq_of_id_eq (hcons a ha) (hcons b hb) hida with
            ⟨htab, hrab, hsab⟩
          rcases hshare with hsh | hsh | hsh
          · exact hfT (by rw [← htab, hsh, heq]; exact hT)
          · exact hfR (by rw [← hrab, hsh, heq]; exact hR)
          · exact hfS (by rw [← hsab, hsh, heq]; exact hS)
      · rcases mem_sched_insert_cases hmb with ⟨hidc, rfl⟩ | holdc
        · intro heq
          rcases h2 a ha sa holda with ⟨hT, hR, hS⟩
          rcases activity_fields_eq_of_id_eq (hcons c hc) (hcons b hb) hidc with
            ⟨htcb, hrcb, hscb⟩
          rcases hshare with hsh | hsh | hsh
          · exact hfT (by rw [← htcb, ← hsh, ← heq]; exact hT)
          · exact hfR (by rw [← hrcb, ← hsh, ← heq]; exact hR)
          · exact hfS (by rw [← hscb, ← hsh, ← heq]; exact hS)
        · exact h3 a ha c hc hne hshare sa sb holda holdc

lemma mem_insert_by_priority {x a : Activity} {l : List Activity}
    (h : x ∈ insert_by_priority a l) : x = a ∨ x ∈ l := by
  induction l with
  | nil => exact Or.inl (List.mem_singleton.1 h)
  | cons b rest ih =>
    unfold insert_by_priority at h
    by_cases hp : b.priority ≤ a.priority
    · rw [if_pos hp] at h
      rcases List.mem_cons.1 h with rfl | hm
      · exact Or.inl rfl
      · exact Or.inr hm
    · rw [if_neg hp] at h
      rcases List.mem_cons.1 h with rfl | hm
      · exact Or.inr (List.mem_cons_self _ _)
      · rcases ih hm with rfl | hr
        · exact Or.inl rfl
        · exact Or.inr (List.mem_cons_of_mem _ hr)

lemma mem_sort_by_priority_desc {x : Activity} {l : List Activity}
    (h : x ∈ sort_by_priority_desc l) : x ∈ l := by
  induction l with
  | nil => cases h
  | cons b rest ih =>
    unfold sort_by_priority_desc at h
    rcases mem_insert_by_priority h with rfl | hm
    · exact List.mem_cons_self _ _
    · exact List.mem_cons_of_mem _ (ih hm)

lemma mem_greedy_order {x : Activity} {acts : List Activity}
    (h : x ∈ greedy_order acts) : x ∈ acts := by
  unfold greedy_order at h
  rcases List.mem_flatMap.1 h with ⟨sec, _, hx⟩
  exact (List.mem_filter.1 (mem_sort_by_priority_desc hx)).1

lemma greedy_fold_inv {acts : List Activity} (slots : List TimeSlot)
    (hcons : ∀ a ∈ acts, id_consistent a) :
    ∀ (todo : List Activity) (st : GreedyState), (∀ a ∈ todo, a ∈ acts) →
      greedy_covered acts st → greedy_busy_consistent acts st → greedy_pairwise acts st →
      greedy_covered acts (todo.foldl (greedy_assign_one slots) st) ∧
      greedy_busy_consistent acts (todo.foldl (greedy_assign_one slots) st) ∧
      greedy_pairwise acts (todo.foldl (greedy_assign_one slots) st)
  | [], st, _, h1, h2, h3 => ⟨h1, h2, h3⟩
  | b :: rest, st, hsub, h1, h2, h3 => by
    rcases greedy_assign_one_inv hcons (hsub b (List.mem_cons_self _ _)) h1 h2 h3 with
      ⟨g1, g2, g3⟩
    exact greedy_fold_inv slots hcons rest _
      (fun a ha => hsub a (List.mem_cons_of_mem _ ha)) g1 g2 g3

lemma find?_eq_head_filter {α : Type} (p : α → Bool) (l : List α) :
    l.find? p = (l.filter p).head? := by
  induction l with
  | nil => rfl
  | cons x xs ih =>
    cases hx : p x with
    | true => simp only [List.find?, List.filter, hx, List.head?]
    | false =>
      simp only [List.find?, List.filter, hx]
      exact ih

/-- **C5 (amended).** The greedy constructor (sections in
first-appearance order, descending priority within a section) assigns
each activity the first catalog slot that is *not the hardcoded lunch
period 5* and at which its teacher, room and section are unoccupied
(the claim omits the lunch exclusion); consequently its schedule has no
teacher, room or section double-booking. -/
theorem greedy_assignment_no_double_booking_and_first_fit
    (activities : List Activity) (available_slots : List TimeSlot)
    (hcons : ∀ a ∈ activities, id_consistent a) :
    no_double_booking (greedy_assignment activities available_slots).schedule ∧
    (∀ st a, greedy_pick available_slots st a =
      (available_slots.filter
        (fun sl => decide (sl.period ≠ 5) && greedy_free st a sl)).head?) := by
  constructor
  · rcases greedy_fold_inv available_slots hcons (greedy_order activities)
      ⟨[], [], [], []⟩ (fun a ha => mem_greedy_order ha)
      (by rintro ⟨x, t⟩ he; cases he) (by intro a _ sl h; cases h)
      (by intro a _ b _ _ _ sa sb h; cases h) with ⟨hcov, hbusy, hpair⟩
    rintro ⟨x1, t1⟩ he1 ⟨x2, t2⟩ he2 hne hshare
    rcases hcov (x1, t1) he1 with ⟨a, ha, rfl⟩
    rcases hcov (x2, t2) he2 with ⟨b, hb, rfl⟩
    rcases hcons a ha with ⟨has, hat, har⟩
    rcases hcons b hb with ⟨hbs, hbt, hbr⟩
    have hshare2 : a.teacherId = b.teacherId ∨ a.roomId = b.roomId ∨
        a.sectionId = b.sectionId := by
      rcases hshare with h | h | h
      · left; rw [← hat, ← hbt]; exact h
      · right; left; rw [← har, ← hbr]; exact h
      · right; right; rw [← has, ← hbs]; exact h
    exact hpair a ha b hb hne hshare2 t1 t2 he1 he2
  · intro st a
    exact find?_eq_head_filter _ _

/-- Witness for C5 (amended): concrete five-activity run producing a
double-booking-free schedule. -/
theorem greedy_assignment_no_double_booking_and_first_fit_witness :
    no_double_booking (greedy_assignment fiveSameSectionActivities
      (get_available_slots ["Monday"])).schedule :=
  (greedy_assignment_no_double_booking_and_first_fit fiveSameSectionActivities
    (get_available_slots ["Monday"]) (by
      intro a ha
      rcases List.mem_map.1 ha with ⟨i, _, rfl⟩
      exact ⟨rfl, rfl, rfl⟩)).1

/-! ## Activity factory (`create_activities`, source lines 803-909) -/

/-- Section input record (used fields: `id`, `name`, `department_id`,
`capacity`; `getattr(section, 'capacity', 30)` at source line 863 makes
capacity optional, defaulting to 30). -/
structure SchoolSection where
  id : Nat
  name : String
  department_id : Option Nat
  capacity : Option Nat
deriving DecidableEq, Repr

/-- Teacher input record; `subjects`/`courses` are the id sets of the
capability relations behind `teacher_can_teach` (source lines 911-916). -/
structure Teacher where
  id : Nat
  full_name : String
  subjects : List Nat
  courses : List Nat
deriving DecidableEq, Repr

/-- Classroom input record (used fields: `id`, `room_id`, `capacity`). -/
structure Classroom where
  id : Nat
  room_id : String
  capacity : Nat
deriving DecidableEq, Repr

/-- Subject/course input record; `credits` is optional (`getattr(...,
'credits', 3)` with an extra `None` check, source lines 840-842). -/
structure Subject where
  id : Nat
  name : String
  credits : Option Nat
  department_id : Option Nat
deriving DecidableEq, Repr

/-- `teacher_can_teach` (source lines 911-916): school mode checks the
subject list, college mode the course list. -/
def teacher_can_teach (app_mode : String) (t : Teacher) (s : Subject) : Bool :=
  if app_mode = "school" then decide (s.id ∈ t.subjects) else decide (s.id ∈ t.courses)

/-- The relevant-subject selection (source lines 822-832): school mode
takes the whole catalog; college mode filters courses by the section's
department (a `None` or `0` department id is falsy in Python and skips
the filter), falling back to the full catalog when the filtered list is
empty. -/
def relevant_subjects (app_mode : String) (subjects : List Subject)
    (sec : SchoolSection) : List Subject :=
  if app_mode = "school" then subjects
  else
    let filtered :=
      match sec.department_id with
      | some d =>
        if d ≠ 0 then subjects.filter (fun c => decide (c.department_id = some d)) else []
      | none => []
    if filtered.isEmpty then subjects else filtered

/-- A `defaultdict(int)` usage counter bump. -/
def bump (u : Nat → Nat) (k : Nat) : Nat → Nat := fun x => if x = k then u k + 1 else u x

/-- `classroom_score` (source lines 862-866). -/
def classroom_score (room_usage : Nat → Nat) (sec : SchoolSection) (c : Classroom) : Nat :=
  room_usage c.id * 2 + (if sec.capacity.getD 30 ≤ c.capacity then 0 else 1000)

/-- Python `min(..., key=score)`: the first element of minimal score;
`none` on an empty list (where CPython raises `ValueError`). -/
def min_by_score (score : Classroom → Nat) : List Classroom → Option Classroom
  | [] => none
  | c :: cs => some (cs.foldl (fun b x => if score x < score b then x else b) c)

/-- The unhandled exceptions `create_activities` can raise. -/
inductive GenError : Type
  | emptyClassrooms
  | emptySections
deriving DecidableEq, Repr

/-- The running state of the factory loops: usage counters, created
activities, and the position in the injected random-priority stream. -/
structure FactoryState where
  teacher_usage : Nat → Nat
  room_usage : Nat → Nat
  acts : List Activity
  rng_index : Nat

/-- One required occurrence (the body of `for class_num in
range(credits)`, source lines 847-890): the first capable teacher under
the 30-class cap, else the occurrence is skipped (lines 857-859); then
the least-penalized classroom — `min` over an EMPTY classroom list
raises `ValueError` (line 868), embedded as `GenError.emptyClassrooms`;
the created activity gets a random priority from the stream `prio`. -/
def create_one_occurrence (app_mode : String) (teachers : List Teacher)
    (classrooms : List Classroom) (prio : Nat → Nat) (sec : SchoolSection)
    (subject : Subject) (class_num : Nat) (st : FactoryState) :
    Except GenError FactoryState :=
  match teachers.find? (fun t => teacher_can_teach app_mode t subject &&
      decide (st.teacher_usage t.id < 30)) with
  | none => Except.ok st
  | some t =>
    match min_by_score (classroom_score st.room_usage sec) classrooms with
    | none => Except.error GenError.emptyClassrooms
    | some c =>
      Except.ok
        { teacher_usage := bump st.teacher_usage t.id
          room_usage := bump st.room_usage c.id
          acts := st.acts ++
            [{ id := ⟨sec.id, t.id, c.id, subject.id, class_num⟩
               sectionId := sec.id
               teacherId := t.id
               subjectId := if app_mode = "school" then some subject.id else none
               courseId := if app_mode = "college" then some subject.id else none
               roomId := c.id
               priority := prio st.rng_index }]
          rng_index := st.rng_index + 1 }

/-- `for class_num in range(credits)` (source line 847). -/
def create_occurrences (app_mode : String) (teachers : List Teacher)
    (classrooms : List Classroom) (prio : Nat → Nat) (sec : SchoolSection)
    (subject : Subject) : Nat → Nat → FactoryState → Except GenError FactoryState
  | _, 0, st => Except.ok st
  | class_num, n + 1, st =>
    match create_one_occurrence app_mode teachers classrooms prio sec subject class_num st with
    | Except.error e => Except.error e
    | Except.ok st2 =>
      create_occurrences app_mode teachers classrooms prio sec subject (class_num + 1) n st2

/-- `for subject in relevant_subjects` (source line 838), with
`credits = getattr(subject, 'credits', 3) or 3` (lines 840-842). -/
def create_subject_loop (app_mode : String) (teachers : List Teacher)
    (classrooms : List Classroom) (prio : Nat → Nat) (sec : SchoolSection) :
    List Subject → FactoryState → Except GenError FactoryState
  | [], st => Except.ok st
  | s :: rest, st =>
    match create_occurrences app_mode teachers classrooms prio sec s 0 (s.credits.getD 3) st with
    | Except.error e => Except.error e
    | Except.ok st2 => create_subject_loop app_mode teachers classrooms prio sec rest st2

/-- `for section in self.sections` (source line 818). -/
def create_sections_loop (app_mode : String) (subjects : List Subject)
    (teachers : List Teacher) (classrooms : List Classroom) (prio : Nat → Nat) :
    List SchoolSection → FactoryState → Except GenError FactoryState
  | [], st => Except.ok st
  | sec :: rest, st =>
    match create_subject_loop app_mode teachers classrooms prio sec
        (relevant_subjects app_mode subjects sec) st with
    | Except.error e => Except.error e
    | Except.ok st2 => create_sections_loop app_mode subjects teachers classrooms prio rest st2

/-- `TimetableGenerator.create_activities` (source lines 803-909).  The
closing report at line 896 divides by `len(self.sections)`, raising
`ZeroDivisionError` for an empty section list, embedded as
`GenError.emptySections`. -/
def create_activities (app_mode : String) (sections : List SchoolSection)
    (teachers : List Teacher) (classrooms : List Classroom) (subjects : List Subject)
    (prio : Nat → Nat) : Except GenError (List Activity) :=
  match create_sections_loop app_mode subjects teachers classrooms prio sections
      ⟨fun _ => 0, fun _ => 0, [], 0⟩ with
  | Except.error e => Except.error e
  | Except.ok st =>
    if sections.isEmpty then Except.error GenError.emptySections else Except.ok st.acts

/-- Concrete one-section input for the zero-rooms scenario. -/
def c6Section : SchoolSection := ⟨1, "S1", none, some 30⟩

/-- A teacher capable of subject 7. -/
def c6Teacher : Teacher := ⟨1, "T", [7], []⟩

/-- A one-credit subject. -/
def c6Subject : Subject := ⟨7, "Math", some 1, none⟩

/-- **C6.** With zero rooms and a capable teacher, `create_activities`
reaches `min(self.classrooms, key=...)` on the empty room list and
raises `ValueError` instead of completing with zero activities — the
claimed crash-free behaviour fails (the graceful skip only covers the
missing-teacher case, as the second conjunct shows). -/
theorem create_activities_zero_rooms_crashes :
    create_activities "school" [c6Section] [c6Teacher] [] [c6Subject] (fun _ => 1) =
      Except.error GenError.emptyClassrooms ∧
    create_activities "school" [c6Section] [⟨1, "T", [], []⟩] [] [c6Subject] (fun _ => 1) =
      Except.ok [] := by
  refine ⟨by rfl, by rfl⟩

/-! ## Pipeline (`generate`, source lines 436-455) and determinism -/

/-- One flattened timetable entry (source lines 973-987). -/
structure TimetableEntry where
  day : String
  period : Nat
  teacher_id : Nat
  section_id : Nat
  classroom_id : Nat
  subject_id : Option Nat
  course_id : Option Nat
deriving DecidableEq, Repr

/-- `convert_to_timetable_entries` (source lines 962-990): flatten each
assignment, re-parsing the id fields; day names are truncated to 10
characters. -/
def convert_to_timetable_entries (app_mode : String) (schedule : Schedule) :
    List TimetableEntry :=
  schedule.map (fun e =>
    { day := e.2.day.take 10
      period := e.2.period
      teacher_id := e.1.teacherId
      section_id := e.1.sectionId
      classroom_id := e.1.roomId
      subject_id := if app_mode = "school" then some e.1.subjectId else none
      course_id := if app_mode = "school" then none else some e.1.subjectId })

/-- `greedy_assignment` as invoked by the pipeline (source lines
442, 457-470): activity creation, then the slot catalog, then the
greedy fold; activity creation failures propagate. -/
def greedy_full (app_mode : String) (sections : List SchoolSection) (teachers : List Teacher)
    (classrooms : List Classroom) (subjects : List Subject) (working_days : List String)
    (prio : Nat → Nat) : Except GenError Schedule :=
  match create_activities app_mode sections teachers classrooms subjects prio with
  | Except.error e => Except.error e
  | Except.ok acts =>
    Except.ok (greedy_assignment acts (get_available_slots working_days)).schedule

/-- `TimetableGenerator.generate` (source lines 436-455): greedy only;
an empty solution returns the empty entry list.  No fallback path
exists: `fallback_assignment` is never invoked here or anywhere else. -/
def generate (app_mode : String) (sections : List SchoolSection) (teachers : List Teacher)
    (classrooms : List Classroom) (subjects : List Subject) (working_days : List String)
    (prio : Nat → Nat) : Except GenError (List TimetableEntry) :=
  match greedy_full app_mode sections teachers classrooms subjects working_days prio with
  | Except.error e => Except.error e
  | Except.ok sched =>
    if sched.isEmpty then Except.ok []
    else Except.ok (convert_to_timetable_entries app_mode sched)

/-- **C9.** GreedyConstructor determinism: two runs with identical
sections, teachers, classrooms, subjects/courses, settings
(working days) and identical injected random streams produce the
identical schedule.  All stochastic choices of the constructor (the
per-activity `random.randint` priorities) are drawn from the injected
stream, so the embedded pipeline is a pure function of its inputs. -/
theorem greedy_full_deterministic
    (m1 m2 : String) (se1 se2 : List SchoolSection) (t1 t2 : List Teacher)
    (c1 c2 : List Classroom) (su1 su2 : List Subject) (w1 w2 : List String)
    (p1 p2 : Nat → Nat)
    (hm : m1 = m2) (hse : se1 = se2) (ht : t1 = t2) (hc : c1 = c2)
    (hsu : su1 = su2) (hw : w1 = w2) (hp : p1 = p2) :
    greedy_full m1 se1 t1 c1 su1 w1 p1 = greedy_full m2 se2 t2 c2 su2 w2 p2 := by
  subst hm
  subst hse
  subst ht
  subst hc
  subst hsu
  subst hw
  subst hp
  rfl

/-- Witness for C9 at a concrete input. -/
theorem greedy_full_deterministic_witness :
    greedy_full "school" [c6Section] [c6Teacher] [⟨1, "R1", 40⟩] [c6Subject] ["Monday"]
        (fun _ => 1) =
      greedy_full "school" [c6Section] [c6Teacher] [⟨1, "R1", 40⟩] [c6Subject] ["Monday"]
        (fun _ => 1) :=
  greedy_full_deterministic _ _ _ _ _ _ _ _ _ _ _ _ _ _ rfl rfl rfl rfl rfl rfl rfl

/-! ## Fallback assignment (`fallback_assignment`, source lines 533-563) -/

/-- The state of `fallback_assignment` (source lines 537-542); these
occupancy maps store `TimeSlot`s directly (the source adds the slot
objects, lines 555-557). -/
structure FallbackState where
  schedule : Schedule
  teacher_schedule : List (Nat × TimeSlot)
  room_schedule : List (Nat × TimeSlot)
  section_schedule : List (Nat × TimeSlot)
  assigned_count : Nat
deriving Repr

/-- The activity loop of `fallback_assignment` (source lines 545-560):
break once `len(self.sections)` assignments were made; otherwise assign
the first slot free for the activity's SECTION only (the relaxed check,
line 551), updating all three occupancy maps. -/
def fallback_step (num_sections : Nat) (available_slots : List TimeSlot) :
    List Activity → FallbackState → FallbackState
  | [], st => st
  | a :: rest, st =>
    if num_sections ≤ st.assigned_count then st
    else
      match available_slots.find?
          (fun sl => !(decide ((a.sectionId, sl) ∈ st.section_schedule))) with
      | some sl =>
        fallback_step num_sections available_slots rest
          { schedule := sched_insert a.id sl st.schedule
            teacher_schedule := (a.teacherId, sl) :: st.teacher_schedule
            room_schedule := (a.roomId, sl) :: st.room_schedule
            section_schedule := (a.sectionId, sl) :: st.section_schedule
            assigned_count := st.assigned_count + 1 }
      | none => fallback_step num_sections available_slots rest st

/-- `TimetableGenerator.fallback_assignment` (source lines 533-563),
with `num_sections = len(self.sections)`. -/
def fallback_assignment (num_sections : Nat) (activities : List Activity)
    (available_slots : List TimeSlot) : FallbackState :=
  fallback_step num_sections available_slots activities ⟨[], [], [], [], 0⟩

/-- No two distinct assigned activities of one section share a slot. -/
def no_section_double_booking (s : Schedule) : Prop :=
  ∀ e1 ∈ s, ∀ e2 ∈ s, e1.1 ≠ e2.1 → get_section_id e1.1 = get_section_id e2.1 → e1.2 ≠ e2.2

/-- Schedule keys of the fallback state stem from the activity list. -/
def fb_covered (acts : List Activity) (st : FallbackState) : Prop :=
  ∀ e ∈ st.schedule, ∃ a, a ∈ acts ∧ a.id = e.1

/-- Every fallback assignment is recorded in the section map. -/
def fb_busy (acts : List Activity) (st : FallbackState) : Prop :=
  ∀ a ∈ acts, ∀ sl, (a.id, sl) ∈ st.schedule → (a.sectionId, sl) ∈ st.section_schedule

/-- Distinct same-section activities sit at distinct slots. -/
def fb_pairwise (acts : List Activity) (st : FallbackState) : Prop :=
  ∀ a ∈ acts, ∀ b ∈ acts, a.id ≠ b.id → a.sectionId = b.sectionId →
    ∀ sa sb, (a.id, sa) ∈ st.schedule → (b.id, sb) ∈ st.schedule → sa ≠ sb

lemma sched_insert_length (a : ActivityId) (sl : TimeSlot) (s : Schedule) :
    (sched_insert a sl s).length ≤ s.length + 1 := by
  induction s with
  | nil => simp [sched_insert]
  | cons e rest ih =>
    unfold sched_insert
    by_cases hea : e.1 = a
    · rw [if_pos hea]
      simp
    · rw [if_neg hea]
      simpa using ih

lemma fallback_step_inv {acts : List Activity} (n : Nat) (slots : List TimeSlot)
    (hcons : ∀ a ∈ acts, id_consistent a) :
    ∀ (todo : List Activity) (st : FallbackState), (∀ a ∈ todo, a ∈ acts) →
      fb_covered acts st → fb_busy acts st → fb_pairwise acts st →
      st.schedule.length ≤ st.assigned_count → st.assigned_count ≤ n →
      fb_covered acts (fallback_step n slots todo st) ∧
      fb_busy acts (fallback_step n slots todo st) ∧
      fb_pairwise acts (fallback_step n slots todo st) ∧
      (fallback_step n slots todo st).schedule.length ≤ n
  | [], st, _, h1, h2, h3, h4, h5 => ⟨h1, h2, h3, le_trans h4 h5⟩
  | b :: rest, st, hsub, h1, h2, h3, h4, h5 => by
    unfold fallback_step
    by_cases hstop : n ≤ st.assigned_count
    · rw [if_pos hstop]
      exact ⟨h1, h2, h3, le_trans h4 h5⟩
    · rw [if_neg hstop]
      cases hpick : slots.find?
          (fun sl => !(decide ((b.sectionId, sl) ∈ st.section_schedule))) with
      | none =>
        exact fallback_step_inv n slots hcons rest st
          (fun a ha => hsub a (List.mem_cons_of_mem _ ha)) h1 h2 h3 h4 h5
      | some sl =>
        have hfree : (b.sectionId, sl) ∉ st.section_schedule := by
          have hf := List.find?_some hpick
          simpa using hf
        have hb : b ∈ acts := hsub b (List.mem_cons_self _ _)
        refine fallback_step_inv n slots hcons rest _
          (fun a ha => hsub a (List.mem_cons_of_mem _ ha)) ?_ ?_ ?_ ?_ ?_
        · rintro ⟨x, t⟩ he
          rcases mem_sched_insert_cases he with ⟨rfl, rfl⟩ | hold
          · exact ⟨b, hb, rfl⟩
          · exact h1 (x, t) hold
        · intro a ha sl2 hmem2
          rcases mem_sched_insert_cases hmem2 with ⟨hid, rfl⟩ | hold
          · have hsec : a.sectionId = b.sectionId := by
              rcases hcons a ha with ⟨has, _, _⟩
              rcases hcons b hb with ⟨hbs, _, _⟩
              rw [← has, ← hbs, hid]
            rw [hsec]
            exact List.mem_cons_self _ _
          · exact List.mem_cons_of_mem _ (h2 a ha sl2 hold)
        · intro a ha c hc hne hsec sa sb hma hmb
          rcases mem_sched_insert_cases hma with ⟨hida, rfl⟩ | holda
          · rcases mem_sched_insert_cases hmb with ⟨hidc, rfl⟩ | holdc
            · exact absurd (hida.trans hidc.symm) hne
            · intro heq
              have hT := h2 c hc sb holdc
              have hab : a.sectionId = b.sectionId := by
                rcases hcons a ha with ⟨has, _, _⟩
                rcases hcons b hb with ⟨hbs, _, _⟩
                rw [← has, ← hbs, hida]
              exact hfree (by rw [← hab, hsec, heq]; exact hT)
          · rcases mem_sched_insert_cases hmb with ⟨hidc, rfl⟩ | holdc
            · intro heq
              have hT := h2 a ha sa holda
              have hcb : c.sectionId = b.sectionId := by
                rcases hcons c hc with ⟨hcs, _, _⟩
                rcases hcons b hb with ⟨hbs, _, _⟩
                rw [← hcs, ← hbs, hidc]
              exact hfree (by rw [← hcb, ← hsec, ← heq]; exact hT)
            · exact h3 a ha c hc hne hsec sa sb holda holdc
        · exact le_trans (sched_insert_length _ _ _) (Nat.succ_le_succ h4)
        · show st.assigned_count + 1 ≤ n
          omega

/-- **C8 (amended).** `fallback_assignment` checks only section
conflicts: its output never double-books a section, and it stops after
at most `len(sections)` assignments — which does NOT guarantee one
activity per section; moreover the pipeline never invokes it:
`generate` returns the empty entry list when the greedy pass assigns
nothing. -/
theorem fallback_assignment_section_only_and_never_invoked
    (num_sections : Nat) (activities : List Activity) (available_slots : List TimeSlot)
    (hcons : ∀ a ∈ activities, id_consistent a) :
    no_section_double_booking
      (fallback_assignment num_sections activities available_slots).schedule ∧
    (fallback_assignment num_sections activities available_slots).schedule.length ≤
      num_sections ∧
    (∀ m se t c su w p, greedy_full m se t c su w p = Except.ok [] →
      generate m se t c su w p = Except.ok []) := by
  rcases fallback_step_inv num_sections available_slots hcons activities
      ⟨[], [], [], [], 0⟩ (fun a ha => ha) (by rintro ⟨x, t⟩ he; cases he)
      (by intro a _ sl h; cases h) (by intro a _ b _ _ _ sa sb h; cases h)
      (Nat.le_refl 0) (Nat.zero_le _) with ⟨hcov, hbusy, hpair, hlen⟩
  refine ⟨?_, hlen, ?_⟩
  · rintro ⟨x1, t1⟩ he1 ⟨x2, t2⟩ he2 hne hsec
    rcases hcov (x1, t1) he1 with ⟨a, ha, rfl⟩
    rcases hcov (x2, t2) he2 with ⟨b, hb, rfl⟩
    rcases hcons a ha with ⟨has, _, _⟩
    rcases hcons b hb with ⟨hbs, _, _⟩
    have hsec2 : a.sectionId = b.sectionId := by
      rw [← has, ← hbs]
      exact hsec
    exact hpair a ha b hb hne hsec2 t1 t2 he1 he2
  · intro m se t c su w p h
    unfold generate
    rw [h]
    rfl

/-- Three activities, two of section 1 before one of section 2. -/
def c8Activities : List Activity :=
  [{ id := ⟨1, 1, 1, 0, 0⟩, sectionId := 1, teacherId := 1, subjectId := none,
     courseId := some 0, roomId := 1 },
   { id := ⟨1, 1, 1, 0, 1⟩, sectionId := 1, teacherId := 1, subjectId := none,
     courseId := some 0, roomId := 1 },
   { id := ⟨2, 2, 2, 0, 0⟩, sectionId := 2, teacherId := 2, subjectId := none,
     courseId := some 0, roomId := 2 }]

/-- Witness for C8 (amended) at the concrete three-activity input. -/
theorem fallback_assignment_section_only_witness :
    no_section_double_booking
      (fallback_assignment 2 c8Activities [⟨"Monday", 1⟩, ⟨"Monday", 2⟩]).schedule ∧
    (fallback_assignment 2 c8Activities [⟨"Monday", 1⟩, ⟨"Monday", 2⟩]).schedule.length ≤ 2 :=
  ⟨(fallback_assignment_section_only_and_never_invoked 2 c8Activities
      [⟨"Monday", 1⟩, ⟨"Monday", 2⟩]
      (by intro a ha; fin_cases ha <;> exact ⟨rfl, rfl, rfl⟩)).1,
   (fallback_assignment_section_only_and_never_invoked 2 c8Activities
      [⟨"Monday", 1⟩, ⟨"Monday", 2⟩]
      (by intro a ha; fin_cases ha <;> exact ⟨rfl, rfl, rfl⟩)).2.1⟩

/-- **C8 counterexample.** With two sections and the section-1
activities listed first, the fallback assigns two section-1 activities
and stops: section 2 gets nothing, refuting "at least one assigned
activity for every section"; the trigger condition is also wrong, since
`generate` returns `[]` rather than ever calling the fallback. -/
theorem fallback_not_one_per_section_counterexample :
    (c8Activities.map (fun a => a.sectionId)) = [1, 1, 2] ∧
    ((fallback_assignment 2 c8Activities [⟨"Monday", 1⟩, ⟨"Monday", 2⟩]).schedule.map
      (fun e => e.1.sectionId)) = [1, 1] := by
  refine ⟨by decide, by decide⟩

/-! ## Local refinement (`constraint_satisfaction_refinement`,
source lines 758-801) -/

/-- The candidate-evaluation step of `find_best_slot_for_activity`
(source lines 788-799): consider a slot only if it differs from the
current one and passes `can_assign`; keep it only on a strict soft-score
improvement over the best so far. -/
def fbsfa_step (d : ActivityId → ℚ) (aid : ActivityId) (sched : Schedule) (cur : TimeSlot)
    (b : TimeSlot × ℚ) (sl : TimeSlot) : TimeSlot × ℚ :=
  if decide (sl ≠ cur) && can_assign aid sl sched then
    if b.2 < evaluate_soft_constraints d (sched_insert aid sl sched) then
      (sl, evaluate_soft_constraints d (sched_insert aid sl sched))
    else b
  else b

/-- `find_best_slot_for_activity` (source lines 781-801), starting from
the current slot and the current schedule's full soft score.  (The
current slot is read with `schedule[activity_id]`; the `none` branch is
a `KeyError` in the source, unreachable at the call site which iterates
the schedule's own keys.) -/
def find_best_slot_for_activity (available_slots : List TimeSlot) (d : ActivityId → ℚ)
    (aid : ActivityId) (sched : Schedule) : TimeSlot :=
  match slookup aid sched with
  | none => ⟨"", 0⟩
  | some cur =>
    (available_slots.foldl (fbsfa_step d aid sched cur)
      (cur, evaluate_soft_constraints d sched)).1

/-- One pass of the improvement loop (source lines 766-777): visit the
schedule's keys in order, moving each activity to its best slot whenever
that differs from its current slot, and recording the improved flag. -/
def refine_pass_go (available_slots : List TimeSlot) (d : ActivityId → ℚ) :
    List ActivityId → Schedule → Bool → Schedule × Bool
  | [], s, improved => (s, improved)
  | aid :: rest, s, improved =>
    match slookup aid s with
    | none => refine_pass_go available_slots d rest s improved
    | some cur =>
      if find_best_slot_for_activity available_slots d aid s ≠ cur then
        refine_pass_go available_slots d rest
          (sched_insert aid (find_best_slot_for_activity available_slots d aid s) s) true
      else refine_pass_go available_slots d rest s improved

/-- One full pass over `refined_schedule.keys()` (source line 768). -/
def refine_pass (available_slots : List TimeSlot) (d : ActivityId → ℚ) (s : Schedule) :
    Schedule × Bool :=
  refine_pass_go available_slots d (s.map Prod.fst) s false

/-- The bounded pass loop with early exit (source lines 765-777). -/
def cs_refine_loop (available_slots : List TimeSlot) (d : ActivityId → ℚ) :
    Nat → Schedule → Schedule
  | 0, s => s
  | k + 1, s =>
    match refine_pass available_slots d s with
    | (s2, true) => cs_refine_loop available_slots d k s2
    | (s2, false) => s2

/-- `TimetableGenerator.constraint_satisfaction_refinement`
(source lines 758-779): 10 improvement attempts. -/
def constraint_satisfaction_refinement (available_slots : List TimeSlot)
    (d : ActivityId → ℚ) (s : Schedule) : Schedule :=
  cs_refine_loop available_slots d 10 s

/-- The schedule after `i` unconditional refinement passes (for the
pass-indexed monotonicity statement). -/
def refine_iter (available_slots : List TimeSlot) (d : ActivityId → ℚ) :
    Nat → Schedule → Schedule
  | 0, s => s
  | k + 1, s => (refine_pass available_slots d (refine_iter available_slots d k s)).1

/-- The running best of the candidate fold is either the untouched
current slot with the current score, or a conflict-checked strict
improvement. -/
def fbsfa_inv (d : ActivityId → ℚ) (aid : ActivityId) (sched : Schedule) (cur : TimeSlot)
    (b : TimeSlot × ℚ) : Prop :=
  (b.1 = cur ∧ b.2 = evaluate_soft_constraints d sched) ∨
  (b.1 ≠ cur ∧ can_assign aid b.1 sched = true ∧
    b.2 = evaluate_soft_constraints d (sched_insert aid b.1 sched) ∧
    evaluate_soft_constraints d sched < b.2)

lemma fbsfa_fold_inv (d : ActivityId → ℚ) (aid : ActivityId) (sched : Schedule)
    (cur : TimeSlot) :
    ∀ (slots : List TimeSlot) (b : TimeSlot × ℚ), fbsfa_inv d aid sched cur b →
      fbsfa_inv d aid sched cur (slots.foldl (fbsfa_step d aid sched cur) b)
  | [], _, h => h
  | sl :: rest, b, h => by
    apply fbsfa_fold_inv d aid sched cur rest
    unfold fbsfa_step
    by_cases hc : (decide (sl ≠ cur) && can_assign aid sl sched) = true
    · rw [if_pos hc]
      by_cases himp : b.2 < evaluate_soft_constraints d (sched_insert aid sl sched)
      · rw [if_pos himp]
        simp only [Bool.and_eq_true, decide_eq_true_eq] at hc
        right
        refine ⟨hc.1, hc.2, rfl, ?_⟩
        rcases h with ⟨_, hb2⟩ | ⟨_, _, _, hlt⟩
        · rw [hb2] at himp
          exact himp
        · exact lt_trans hlt himp
      · rw [if_neg himp]
        exact h
    · rw [if_neg hc]
      exact h

lemma find_best_slot_spec (slots : List TimeSlot) (d : ActivityId → ℚ) (aid : ActivityId)
    (sched : Schedule) (cur : TimeSlot) (h : slookup aid sched = some cur) :
    find_best_slot_for_activity slots d aid sched = cur ∨
    (can_assign aid (find_best_slot_for_activity slots d aid sched) sched = true ∧
      evaluate_soft_constraints d sched <
        evaluate_soft_constraints d
          (sched_insert aid (find_best_slot_for_activity slots d aid sched) sched)) := by
  unfold find_best_slot_for_activity
  rw [h]
  rcases fbsfa_fold_inv d aid sched cur slots (cur, evaluate_soft_constraints d sched)
      (Or.inl ⟨rfl, rfl⟩) with ⟨h1, _⟩ | ⟨_, h2, h3, h4⟩
  · exact Or.inl h1
  · right
    refine ⟨h2, ?_⟩
    rw [← h3]
    exact h4

lemma refine_pass_go_mono (slots : List TimeSlot) (d : ActivityId → ℚ) :
    ∀ (ids : List ActivityId) (s : Schedule) (imp : Bool),
      evaluate_soft_constraints d s ≤
        evaluate_soft_constraints d (refine_pass_go slots d ids s imp).1
  | [], _, _ => le_refl _
  | aid :: rest, s, imp => by
    unfold refine_pass_go
    cases hcur : slookup aid s with
    | none => exact refine_pass_go_mono slots d rest s imp
    | some cur =>
      show evaluate_soft_constraints d s ≤ evaluate_soft_constraints d
        ((if find_best_slot_for_activity slots d aid s ≠ cur then
            refine_pass_go slots d rest
              (sched_insert aid (find_best_slot_for_activity slots d aid s) s) true
          else refine_pass_go slots d rest s imp)).1
      by_cases hbest : find_best_slot_for_activity slots d aid s ≠ cur
      · rw [if_pos hbest]
        rcases find_best_slot_spec slots d aid s cur hcur with heq | ⟨_, hlt⟩
        · exact absurd heq hbest
        · exact le_trans (le_of_lt hlt) (refine_pass_go_mono slots d rest _ true)
      · rw [if_neg hbest]
        exact refine_pass_go_mono slots d rest s imp

lemma refine_pass_mono (slots : List TimeSlot) (d : ActivityId → ℚ) (s : Schedule) :
    evaluate_soft_constraints d s ≤ evaluate_soft_constraints d (refine_pass slots d s).1 :=
  refine_pass_go_mono slots d (s.map Prod.fst) s false

lemma cs_refine_loop_mono (slots : List TimeSlot) (d : ActivityId → ℚ) :
    ∀ (n : Nat) (s : Schedule),
      evaluate_soft_constraints d s ≤ evaluate_soft_constraints d (cs_refine_loop slots d n s)
  | 0, _ => le_refl _
  | n + 1, s => by
    unfold cs_refine_loop
    cases hp : refine_pass slots d s with
    | mk s2 imp =>
      have h1 : evaluate_soft_constraints d s ≤ evaluate_soft_constraints d s2 := by
        have h2 := refine_pass_mono slots d s
        rw [hp] at h2
        exact h2
      cases imp
      · exact h1
      · exact le_trans h1 (cs_refine_loop_mono slots d n s2)

/-! ### The refinement under the source's per-call random difficulty

`get_subject_difficulty` (source lines 221-223) returns a fresh
`random.random()` on EVERY call, so each `evaluate_soft_constraints`
call inside `find_best_slot_for_activity` sees its own draws.  The
stream embedding below threads a draw stream `r` and its position
through successive evaluations, exactly as the interpreter does. -/

/-- `morning_preference_score` with per-call draws: each schedule item
in a morning period consumes the next draw of the stream `r`;
returns the score and the advanced position. -/
def morning_preference_score_stream (r : Nat → ℚ) : Schedule → Nat → ℚ × Nat
  | [], n => (0, n)
  | e :: rest, n =>
    if e.2.period ≤ 3 then
      let res := morning_preference_score_stream r rest (n + 1)
      (r n * morning_preference_weight + res.1, res.2)
    else morning_preference_score_stream r rest n

/-- `evaluate_soft_constraints` with per-call draws: only the morning
term consumes draws (the other stubs are deterministic). -/
def evaluate_soft_constraints_stream (r : Nat → ℚ) (s : Schedule) (n : Nat) : ℚ × Nat :=
  let m := morning_preference_score_stream r s n
  (m.1 + workload_balance_score s + schedule_continuity_score s
    + lab_optimization_score s + teacher_preference_score s, m.2)

/-- The candidate step of `find_best_slot_for_activity` under per-call
draws: the candidate evaluation consumes draws even when rejected. -/
def fbsfa_step_stream (r : Nat → ℚ) (aid : ActivityId) (sched : Schedule) (cur : TimeSlot)
    (acc : TimeSlot × ℚ × Nat) (sl : TimeSlot) : TimeSlot × ℚ × Nat :=
  if decide (sl ≠ cur) && can_assign aid sl sched then
    let ev := evaluate_soft_constraints_stream r (sched_insert aid sl sched) acc.2.2
    if acc.2.1 < ev.1 then (sl, ev.1, ev.2) else (acc.1, acc.2.1, ev.2)
  else acc

/-- `find_best_slot_for_activity` (source lines 781-801) under per-call
draws: the baseline score and every candidate score come from separate
evaluations with separate draws. -/
def find_best_slot_for_activity_stream (available_slots : List TimeSlot) (r : Nat → ℚ)
    (aid : ActivityId) (sched : Schedule) (n : Nat) : TimeSlot × Nat :=
  match slookup aid sched with
  | none => (⟨"", 0⟩, n)
  | some cur =>
    let base := evaluate_soft_constraints_stream r sched n
    let res := available_slots.foldl (fbsfa_step_stream r aid sched cur) (cur, base.1, base.2)
    (res.1, res.2.2)

/-- One pass of the improvement loop (source lines 766-777) under
per-call draws. -/
def refine_pass_go_stream (available_slots : List TimeSlot) (r : Nat → ℚ) :
    List ActivityId → Schedule → Bool → Nat → Schedule × Bool × Nat
  | [], s, improved, n => (s, improved, n)
  | aid :: rest, s, improved, n =>
    match slookup aid s with
    | none => refine_pass_go_stream available_slots r rest s improved n
    | some cur =>
      let fb := find_best_slot_for_activity_stream available_slots r aid s n
      if fb.1 ≠ cur then
        refine_pass_go_stream available_slots r rest (sched_insert aid fb.1 s) true fb.2
      else refine_pass_go_stream available_slots r rest s improved fb.2

/-- One full pass over the schedule's keys under per-call draws. -/
def refine_pass_stream (available_slots : List TimeSlot) (r : Nat → ℚ) (s : Schedule)
    (n : Nat) : Schedule × Bool × Nat :=
  refine_pass_go_stream available_slots r (s.map Prod.fst) s false n

lemma fbsfa_stream_fold_slot_inv (r : Nat → ℚ) (aid : ActivityId) (sched : Schedule)
    (cur : TimeSlot) :
    ∀ (slots : List TimeSlot) (acc : TimeSlot × ℚ × Nat),
      (acc.1 = cur ∨ can_assign aid acc.1 sched = true) →
      ((slots.foldl (fbsfa_step_stream r aid sched cur) acc).1 = cur ∨
        can_assign aid (slots.foldl (fbsfa_step_stream r aid sched cur) acc).1 sched = true)
  | [], _, h => h
  | sl :: rest, acc, h => by
    apply fbsfa_stream_fold_slot_inv r aid sched cur rest
    unfold fbsfa_step_stream
    by_cases hc : (decide (sl ≠ cur) && can_assign aid sl sched) = true
    · rw [if_pos hc]
      by_cases himp : acc.2.1 <
          (evaluate_soft_constraints_stream r (sched_insert aid sl sched) acc.2.2).1
      · rw [if_pos himp]
        right
        simp only [Bool.and_eq_true] at hc
        exact hc.2
      · rw [if_neg himp]
        exact h
    · rw [if_neg hc]
      exact h

lemma find_best_slot_stream_conflict_free (slots : List TimeSlot) (r : Nat → ℚ)
    (aid : ActivityId) (sched : Schedule) (n : Nat) (cur : TimeSlot)
    (h : slookup aid sched = some cur) :
    (find_best_slot_for_activity_stream slots r aid sched n).1 = cur ∨
      can_assign aid (find_best_slot_for_activity_stream slots r aid sched n).1 sched =
        true := by
  unfold find_best_slot_for_activity_stream
  rw [h]
  exact fbsfa_stream_fold_slot_inv r aid sched cur slots _ (Or.inl rfl)

/-- **C4 (amended).** What survives of the claim under the source's
per-call random difficulty: every accepted move still passes the
teacher/room/section `can_assign` check (first conjunct, stream
semantics).  The score guarantees hold only for the DETERMINISTIC model
in which the difficulty is one fixed per-activity measure `d`: then each
pass, each iterated pass and the bounded loop never decrease the soft
score, and every accepted move strictly increases it.  With the fresh
per-call draws the program actually makes, monotonicity fails (see the
counterexample). -/
theorem refinement_conflict_checked_and_fixed_measure_monotone :
    (∀ slots r aid s n cur, slookup aid s = some cur →
      (find_best_slot_for_activity_stream slots r aid s n).1 = cur ∨
        can_assign aid (find_best_slot_for_activity_stream slots r aid s n).1 s = true) ∧
    (∀ slots d s, evaluate_soft_constraints d s ≤
        evaluate_soft_constraints d (refine_pass slots d s).1) ∧
    (∀ slots d i s, evaluate_soft_constraints d (refine_iter slots d i s) ≤
        evaluate_soft_constraints d (refine_iter slots d (i + 1) s)) ∧
    (∀ slots d s, evaluate_soft_constraints d s ≤
        evaluate_soft_constraints d (constraint_satisfaction_refinement slots d s)) ∧
    (∀ slots d aid s cur, slookup aid s = some cur →
      find_best_slot_for_activity slots d aid s = cur ∨
        (can_assign aid (find_best_slot_for_activity slots d aid s) s = true ∧
          evaluate_soft_constraints d s <
            evaluate_soft_constraints d
              (sched_insert aid (find_best_slot_for_activity slots d aid s) s))) := by
  refine ⟨find_best_slot_stream_conflict_free, refine_pass_mono, ?_, ?_, ?_⟩
  · intro slots d i s
    exact refine_pass_mono slots d (refine_iter slots d i s)
  · intro slots d s
    exact cs_refine_loop_mono slots d 10 s
  · intro slots d aid s cur h
    exact find_best_slot_spec slots d aid s cur h

/-- The rational one half, a realizable `random.random()` draw
(built as a raw fraction so that kernel evaluation never divides). -/
def halfDraw : ℚ := ⟨1, 2, by decide, Nat.coprime_one_left 2⟩

/-- Two same-section, same-teacher activities at Monday periods 1, 2. -/
def refineSched : Schedule :=
  [(⟨1, 1, 1, 0, 0⟩, ⟨"Monday", 1⟩), (⟨1, 1, 1, 0, 1⟩, ⟨"Monday", 2⟩)]

/-- `refineSched` after the pass moves the second activity to period 3,
opening a one-period continuity gap. -/
def refineSchedMoved : Schedule :=
  [(⟨1, 1, 1, 0, 0⟩, ⟨"Monday", 1⟩), (⟨1, 1, 1, 0, 1⟩, ⟨"Monday", 3⟩)]

/-- A realizable `random.random()` trace: the six draws of the first
activity's baseline/candidate evaluations and the second activity's
baseline evaluation are 0.0; the second activity's candidate
evaluation then draws 0.5 twice. -/
def refineStream : Nat → ℚ := fun n => if n < 6 then 0 else halfDraw

/-- Witness for C4 (amended): the stream conjunct and a monotonicity
conjunct at concrete inputs. -/
theorem refinement_conflict_checked_and_fixed_measure_monotone_witness :
    ((find_best_slot_for_activity_stream [⟨"Monday", 3⟩] refineStream ⟨1, 1, 1, 0, 1⟩
        refineSched 0).1 = ⟨"Monday", 2⟩ ∨
      can_assign ⟨1, 1, 1, 0, 1⟩
        (find_best_slot_for_activity_stream [⟨"Monday", 3⟩] refineStream ⟨1, 1, 1, 0, 1⟩
          refineSched 0).1 refineSched = true) ∧
    evaluate_soft_constraints (fun _ => 0) refineSched ≤
      evaluate_soft_constraints (fun _ => 0)
        (refine_pass [⟨"Monday", 3⟩] (fun _ => 0) refineSched).1 :=
  ⟨refinement_conflict_checked_and_fixed_measure_monotone.1 [⟨"Monday", 3⟩] refineStream
      ⟨1, 1, 1, 0, 1⟩ refineSched 0 ⟨"Monday", 2⟩ rfl,
    refinement_conflict_checked_and_fixed_measure_monotone.2.1 [⟨"Monday", 3⟩] (fun _ => 0)
      refineSched⟩

/-- **C4 counterexample.** With the per-call draws the source actually
performs, one refinement pass on `refineSched` accepts the move of the
second activity from (Monday, 2) to (Monday, 3): the baseline evaluation
drew difficulties 0.0 while the candidate evaluation drew 0.5, making
the candidate look better.  The move only widens a continuity gap — both
schedules have the same morning activities — so under EVERY fixed
difficulty measure (here 0.0 and 0.5 shown) the accepted move strictly
DECREASES the total soft score: the refinement is not monotone and an
accepted move can decrease the score. -/
theorem refinement_accepts_score_decreasing_move_counterexample :
    (refine_pass_stream [⟨"Monday", 3⟩] refineStream refineSched 0).1 = refineSchedMoved ∧
    (refine_pass_stream [⟨"Monday", 3⟩] refineStream refineSched 0).2.1 = true ∧
    refineSchedMoved ≠ refineSched ∧
    evaluate_soft_constraints (fun _ => 0) refineSchedMoved <
      evaluate_soft_constraints (fun _ => 0) refineSched ∧
    evaluate_soft_constraints (fun _ => halfDraw) refineSchedMoved <
      evaluate_soft_constraints (fun _ => halfDraw) refineSched := by
  refine ⟨by decide, by decide, by decide, by decide, by decide⟩

end Timetable
